import Mathlib

/-!
Verification of ezmem, a debug wrapper around malloc / calloc / realloc / free.

Shallow embedding of `ezmem.c` / `ezmem.h`.

* Pointers (`void*`) are natural numbers, `0` is `NULL`.
* `size_t` values are natural numbers; the one place where `size_t` arithmetic can wrap
  (`nmemb * size` in `ez_calloc_dbg`) is reduced modulo `2 ^ w`, `w` being the width of `size_t`.
* `int` values (`line`, the results of `ezmem_find_alloc` / `ezmem_remove_alloc`, the argument of
  `ezmem_init`) are integers. `ezmem_debugMode` has the enum type `ezmem_DebugLevel_e`, which gcc
  and clang represent as `unsigned int`: `ezmem_init` stores its argument reduced modulo `2 ^ 32`,
  and the comparisons of the mode are comparisons of that non-negative value. Statements about a
  state of "any mode" range over every integer.
* The cast `(int)i` in `ezmem_find_alloc` and the subtraction `ezmem_allocCount - 1` in
  `ezmem_remove_alloc` are exact: the index is below the count, the count is at most
  `EZMEM_MAX_ALLOCATIONS`, and the subtraction is evaluated only after a record was found.
* The global variables `ezmem_debugMode`, `ezmem_allocBuffer`, `ezmem_allocCount` are the fields
  of `State`; every function takes the state and returns the new one.
* Calls of the C library (`malloc`, `calloc`, `realloc`, `free`, `atexit`) and the lines written by
  `printf` / `fprintf(stderr, ..)` are appended, in program order, to `State.trace`.
  The value returned by the underlying allocator is an input of the wrapper (`ret`): the wrapper is
  verified for every value the allocator may return.
* The `for` loops are recursive functions on a fuel counter that is set by the caller to the maximal
  number of iterations (`ezmem_allocCount`), so every function is total.
-/

namespace Ezmem

/-! ## Data model (ezmem.h) -/

/-- Record of one tracked allocation: `s_ezmemRecord`. -/
structure s_ezmemRecord where
  ptr : Nat
  size : Nat
  file : String
  line : Int
  func : String
deriving DecidableEq, Inhabited

/-- Capacity of the tracking buffer: `#define EZMEM_MAX_ALLOCATIONS 1024`. -/
def EZMEM_MAX_ALLOCATIONS : Nat := 1024

/-- Debug level `EZMEM_DEBUG_OFF = 0`. -/
def EZMEM_DEBUG_OFF : Int := 0
/-- Debug level `EZMEM_DEBUG_LOG = 1`. -/
def EZMEM_DEBUG_LOG : Int := 1
/-- Debug level `EZMEM_DEBUG_TRACK = 2`. -/
def EZMEM_DEBUG_TRACK : Int := 2
/-- Debug level `EZMEM_DEBUG_STRICT = 3`. -/
def EZMEM_DEBUG_STRICT : Int := 3

/-- The text lines the program can write, one constructor per format string of `ezmem.c`,
carrying the values substituted into the format. -/
inductive Msg where
  /-- Format "Error: malloc failed at %s:%d (%s) for %lu bytes". -/
  | malloc_failed (file : String) (line : Int) (func : String) (size : Nat)
  /-- Format "malloc %p of %lu bytes at %s:%d (%s)". -/
  | malloc_ok (ptr size : Nat) (file : String) (line : Int) (func : String)
  /-- Format "Error: calloc failed at %s:%d (%s) for %lu members of %lu bytes". -/
  | calloc_failed (file : String) (line : Int) (func : String) (nmemb size : Nat)
  /-- Format "calloc %p of %lu members of %lu bytes at %s:%d (%s)". -/
  | calloc_ok (ptr nmemb size : Nat) (file : String) (line : Int) (func : String)
  /-- Format "Error: realloc failed at %s:%d (%s) for %lu bytes". -/
  | realloc_failed (file : String) (line : Int) (func : String) (size : Nat)
  /-- Format "realloc %p (from %p to %lu bytes) at %s:%d (%s)". -/
  | realloc_ok (new_ptr ptr size : Nat) (file : String) (line : Int) (func : String)
  /-- Format "freed %p at %s:%d (%s)". -/
  | freed (ptr : Nat) (file : String) (line : Int) (func : String)
  /-- Format "Warning: freed untracked pointer %p at %s:%d (%s)". -/
  | warn_untracked (ptr : Nat) (file : String) (line : Int) (func : String)
  /-- Format "Error: attempted to free untracked pointer %p at %s:%d (%s)". -/
  | err_untracked (ptr : Nat) (file : String) (line : Int) (func : String)
  /-- Format "Warning: %lu memory allocations not freed:". -/
  | leak_header (count : Nat)
  /-- Format "  Leak: %p (%lu bytes) allocated at %s:%d (%s)". -/
  | leak_line (ptr size : Nat) (file : String) (line : Int) (func : String)
deriving DecidableEq

/-- Severity of a line: the "Error:" lines (red), the "Warning:" / "Leak:" lines (yellow),
and the plain lines. -/
inductive Level where
  | info
  | warning
  | error
deriving DecidableEq

/-- Severity of each line, read off its format string. -/
def Msg.level : Msg → Level
  | .malloc_failed .. => .error
  | .malloc_ok .. => .info
  | .calloc_failed .. => .error
  | .calloc_ok .. => .info
  | .realloc_failed .. => .error
  | .realloc_ok .. => .info
  | .freed .. => .info
  | .warn_untracked .. => .warning
  | .err_untracked .. => .error
  | .leak_header .. => .warning
  | .leak_line .. => .warning

/-- Observable actions of the program, in program order. -/
inductive Event where
  /-- Call `malloc(size)`, which returned `ret`. -/
  | call_malloc (size ret : Nat)
  /-- Call `calloc(nmemb, size)`, which returned `ret`. -/
  | call_calloc (nmemb size ret : Nat)
  /-- Call `realloc(ptr, size)`, which returned `ret`. -/
  | call_realloc (ptr size ret : Nat)
  /-- Call `free(ptr)`. -/
  | call_free (ptr : Nat)
  /-- Call `atexit(ezmem_exit)`. -/
  | call_atexit
  /-- A line written with `printf` (standard output). -/
  | printf (m : Msg)
  /-- A line written with `fprintf(stderr, ..)` (standard error). -/
  | eprintf (m : Msg)
deriving DecidableEq

/-- The global state: the three globals of the program and the trace of what it did so far. -/
structure State where
  ezmem_debugMode : Int
  ezmem_allocBuffer : Nat → s_ezmemRecord
  ezmem_allocCount : Nat
  trace : List Event

/-- State at program start: `ezmem_debugMode = 0`, `ezmem_allocCount = 0`, a zeroed buffer. -/
def State.initial : State :=
  { ezmem_debugMode := 0
    ezmem_allocBuffer := fun _ => ⟨0, 0, "", 0, ""⟩
    ezmem_allocCount := 0
    trace := [] }

/-- Assignment `buf[i] = r`. -/
def bufWrite (buf : Nat → s_ezmemRecord) (i : Nat) (r : s_ezmemRecord) : Nat → s_ezmemRecord :=
  fun j => if j = i then r else buf j

/-- Append one event to the trace. -/
def State.emit (s : State) (e : Event) : State :=
  { s with trace := s.trace ++ [e] }

/-- The registry as a sequence: the first `ezmem_allocCount` entries of the buffer, in order. -/
def State.records (s : State) : List s_ezmemRecord :=
  (List.range s.ezmem_allocCount).map s.ezmem_allocBuffer

/-! ## The functions of ezmem.c -/

/-- Number of values of the type of `ezmem_debugMode`: the enum `ezmem_DebugLevel_e` has no
negative enumerator, so gcc and clang give it the representation of `unsigned int` (32 bits). -/
def DEBUG_LEVEL_RANGE : Int := 4294967296

/-- Function `ezmem_init`: registers the exit handler and stores the mode. The cast
`(ezmem_DebugLevel_e)dbg` converts the `int` to the unsigned type of the enum, that is, reduces
it modulo `DEBUG_LEVEL_RANGE`: a value from 0 to `INT_MAX` is stored as it is, a negative `dbg`
is stored as `dbg + 4294967296`. -/
def ezmem_init (s : State) (dbg : Int) : State :=
  { s.emit Event.call_atexit with ezmem_debugMode := dbg % DEBUG_LEVEL_RANGE }

/-- The `for` loop of `ezmem_exit`, from index `i`: one "Leak:" line per record. -/
def ezmem_exit_loop (buf : Nat → s_ezmemRecord) (count : Nat) : Nat → Nat → List Event
  | 0, _ => []
  | fuel + 1, i =>
    if i < count then
      Event.eprintf (Msg.leak_line (buf i).ptr (buf i).size (buf i).file (buf i).line (buf i).func)
        :: ezmem_exit_loop buf count fuel (i + 1)
    else []

/-- Function `ezmem_exit`: the leak report at program exit. -/
def ezmem_exit (s : State) : State :=
  if s.ezmem_debugMode ≥ EZMEM_DEBUG_TRACK ∧ s.ezmem_allocCount > 0 then
    { s with trace := s.trace ++ Event.eprintf (Msg.leak_header s.ezmem_allocCount)
        :: ezmem_exit_loop s.ezmem_allocBuffer s.ezmem_allocCount s.ezmem_allocCount 0 }
  else s

/-- The `for` loop of `ezmem_find_alloc`, from index `i`; `fuel` bounds the iterations left. -/
def ezmem_find_alloc_loop (buf : Nat → s_ezmemRecord) (count ptr : Nat) : Nat → Nat → Int
  | 0, _ => -1
  | fuel + 1, i =>
    if i < count then
      if (buf i).ptr = ptr then (i : Int)
      else ezmem_find_alloc_loop buf count ptr fuel (i + 1)
    else -1

/-- Function `ezmem_find_alloc`: index of the first record with pointer `ptr`, or `-1`. -/
def ezmem_find_alloc (s : State) (ptr : Nat) : Int :=
  ezmem_find_alloc_loop s.ezmem_allocBuffer s.ezmem_allocCount ptr s.ezmem_allocCount 0

/-- The compaction loop of `ezmem_remove_alloc`, from index `i`:
`for (; i < count - 1; ++i) buf[i] = buf[i + 1];`. -/
def ezmem_remove_alloc_loop (count : Nat) :
    Nat → Nat → (Nat → s_ezmemRecord) → (Nat → s_ezmemRecord)
  | 0, _, buf => buf
  | fuel + 1, i, buf =>
    if i < count - 1 then
      ezmem_remove_alloc_loop count fuel (i + 1) (bufWrite buf i (buf (i + 1)))
    else buf

/-- Function `ezmem_remove_alloc`: removes the first record with pointer `ptr`; returns 1 if there was
one, 0 otherwise. -/
def ezmem_remove_alloc (s : State) (ptr : Nat) : Int × State :=
  let idx := ezmem_find_alloc s ptr
  if idx ≥ 0 then
    (1, { s with
          ezmem_allocBuffer :=
            ezmem_remove_alloc_loop s.ezmem_allocCount s.ezmem_allocCount idx.toNat
              s.ezmem_allocBuffer
          ezmem_allocCount := s.ezmem_allocCount - 1 })
  else (0, s)

/-- The five assignments and the increment that append a record to the buffer. -/
def State.push (s : State) (r : s_ezmemRecord) : State :=
  { s with
    ezmem_allocBuffer := bufWrite s.ezmem_allocBuffer s.ezmem_allocCount r
    ezmem_allocCount := s.ezmem_allocCount + 1 }

/-- Function `ez_malloc_dbg`; `ret` is the value `malloc(size)` returns. -/
def ez_malloc_dbg (s : State) (ret : Nat) (size : Nat) (file : String) (line : Int)
    (func : String) : Nat × State :=
  let ptr := ret
  let s := s.emit (Event.call_malloc size ptr)
  if s.ezmem_debugMode ≠ 0 then
    if ptr = 0 then
      (ptr, s.emit (Event.eprintf (Msg.malloc_failed file line func size)))
    else
      let s := s.emit (Event.printf (Msg.malloc_ok ptr size file line func))
      if s.ezmem_debugMode > EZMEM_DEBUG_LOG ∧ s.ezmem_allocCount < EZMEM_MAX_ALLOCATIONS then
        (ptr, s.push ⟨ptr, size, file, line, func⟩)
      else (ptr, s)
  else (ptr, s)

/-- Function `ez_calloc_dbg`; `ret` is the value `calloc(nmemb, size)` returns and `w` the width of
`size_t` (the product `nmemb * size` stored in the record is a `size_t` product). -/
def ez_calloc_dbg (w : Nat) (s : State) (ret : Nat) (nmemb size : Nat) (file : String)
    (line : Int) (func : String) : Nat × State :=
  let ptr := ret
  let s := s.emit (Event.call_calloc nmemb size ptr)
  if s.ezmem_debugMode ≠ 0 then
    if ptr = 0 then
      (ptr, s.emit (Event.eprintf (Msg.calloc_failed file line func nmemb size)))
    else
      let s := s.emit (Event.printf (Msg.calloc_ok ptr nmemb size file line func))
      if s.ezmem_debugMode > EZMEM_DEBUG_LOG ∧ s.ezmem_allocCount < EZMEM_MAX_ALLOCATIONS then
        (ptr, s.push ⟨ptr, (nmemb * size) % 2 ^ w, file, line, func⟩)
      else (ptr, s)
  else (ptr, s)

/-- Function `ez_realloc_dbg`; `ret` is the value `realloc(ptr, size)` returns. -/
def ez_realloc_dbg (s : State) (ret : Nat) (ptr size : Nat) (file : String) (line : Int)
    (func : String) : Nat × State :=
  let new_ptr := ret
  let s := s.emit (Event.call_realloc ptr size new_ptr)
  if s.ezmem_debugMode ≠ 0 then
    if new_ptr = 0 then
      (new_ptr, s.emit (Event.eprintf (Msg.realloc_failed file line func size)))
    else
      let s := s.emit (Event.printf (Msg.realloc_ok new_ptr ptr size file line func))
      if s.ezmem_debugMode > EZMEM_DEBUG_LOG then
        let s := (ezmem_remove_alloc s ptr).2
        if s.ezmem_allocCount < EZMEM_MAX_ALLOCATIONS then
          (new_ptr, s.push ⟨new_ptr, size, file, line, func⟩)
        else (new_ptr, s)
      else (new_ptr, s)
  else (new_ptr, s)

/-- Function `ez_free_dbg`: the `switch` on the mode. -/
def ez_free_dbg (s : State) (ptr : Nat) (file : String) (line : Int) (func : String) : State :=
  if s.ezmem_debugMode = EZMEM_DEBUG_OFF then
    s.emit (Event.call_free ptr)
  else if s.ezmem_debugMode = EZMEM_DEBUG_LOG then
    (s.emit (Event.printf (Msg.freed ptr file line func))).emit (Event.call_free ptr)
  else if s.ezmem_debugMode = EZMEM_DEBUG_TRACK then
    let r := ezmem_remove_alloc s ptr
    let removed := r.1
    let s := r.2
    let s :=
      if removed ≠ 0 then s.emit (Event.printf (Msg.freed ptr file line func))
      else s.emit (Event.eprintf (Msg.warn_untracked ptr file line func))
    s.emit (Event.call_free ptr)
  else if s.ezmem_debugMode = EZMEM_DEBUG_STRICT then
    let r := ezmem_remove_alloc s ptr
    let removed := r.1
    let s := r.2
    if removed ≠ 0 then
      (s.emit (Event.printf (Msg.freed ptr file line func))).emit (Event.call_free ptr)
    else
      s.emit (Event.eprintf (Msg.err_untracked ptr file line func))
  else
    s.emit (Event.call_free ptr)

/-! ## Call sequences -/

/-- One call of the public interface, together with the value the underlying allocator returns
to it (`ret`). -/
inductive Op where
  | init (dbg : Int)
  | malloc (ret size : Nat) (file : String) (line : Int) (func : String)
  | calloc (ret nmemb size : Nat) (file : String) (line : Int) (func : String)
  | realloc (ret ptr size : Nat) (file : String) (line : Int) (func : String)
  | free (ptr : Nat) (file : String) (line : Int) (func : String)
  | remove (ptr : Nat)

/-- Execute one call. -/
def step (w : Nat) (s : State) : Op → State
  | .init dbg => ezmem_init s dbg
  | .malloc ret size file line func => (ez_malloc_dbg s ret size file line func).2
  | .calloc ret nmemb size file line func => (ez_calloc_dbg w s ret nmemb size file line func).2
  | .realloc ret ptr size file line func => (ez_realloc_dbg s ret ptr size file line func).2
  | .free ptr file line func => ez_free_dbg s ptr file line func
  | .remove ptr => (ezmem_remove_alloc s ptr).2

/-- Execute a sequence of calls, left to right. -/
def run (w : Nat) (s : State) (ops : List Op) : State :=
  ops.foldl (step w) s

/-! ## Views of the state used in the statements -/

/-- Pointer `p` has a record in the registry. -/
def State.tracked (s : State) (p : Nat) : Prop :=
  ∃ i, i < s.ezmem_allocCount ∧ (s.ezmem_allocBuffer i).ptr = p

instance (s : State) (p : Nat) : Decidable (s.tracked p) := by
  unfold State.tracked; infer_instance

/-- The buffer after the record at index `k` has been removed by compaction. -/
def compacted (buf : Nat → s_ezmemRecord) (count k : Nat) : Nat → s_ezmemRecord :=
  fun j => if k ≤ j ∧ j < count - 1 then buf (j + 1) else buf j

/-- The pointers of the registry, in registry order. -/
def State.ptrs (s : State) : List Nat :=
  s.records.map (fun r => r.ptr)

/-- The pointers passed to the underlying `free`, in call order. -/
def freeCalls : List Event → List Nat
  | [] => []
  | Event.call_free p :: t => p :: freeCalls t
  | _ :: t => freeCalls t

/-- An event is a call of the C library (as opposed to a line of output). -/
def Event.isCall : Event → Bool
  | .printf _ => false
  | .eprintf _ => false
  | _ => true

/-- A STRICT-mode state with one record: `ezmem_init(3)`, then `malloc(16)` returned `100`. -/
def demoStrict : State :=
  (ez_malloc_dbg (ezmem_init State.initial EZMEM_DEBUG_STRICT) 100 16 "a.c" 1 "f").2

/-- A TRACK-mode state with one record: `ezmem_init(2)`, then `malloc(16)` returned `100`. -/
def demoTrack : State :=
  (ez_malloc_dbg (ezmem_init State.initial EZMEM_DEBUG_TRACK) 100 16 "a.c" 1 "f").2

/-- The call `ez_malloc_dbg(c.size, c.file, c.line, c.func)` to which `malloc` returns `c.ptr`:
the call that, when tracked, creates the record `c`. -/
def mallocOp (c : s_ezmemRecord) : Op :=
  Op.malloc c.ptr c.size c.file c.line c.func

/-- A run of 1024 successful allocations: call `i` returns the pointer `i + 1`. -/
def demoCalls : List s_ezmemRecord :=
  (List.range 1024).map (fun i => ⟨i + 1, 16, "a.c", 1, "f"⟩)

/-- One more successful allocation after `demoCalls`: `malloc` returns the pointer 2000. -/
def demoLast : s_ezmemRecord :=
  ⟨2000, 16, "a.c", 2, "f"⟩

/-- A TRACK-mode state whose registry is full: record `i` has pointer `i + 1` and size 10. -/
def demoFull : State :=
  { ezmem_debugMode := EZMEM_DEBUG_TRACK
    ezmem_allocBuffer := fun i => ⟨i + 1, 10, "a.c", 1, "f"⟩
    ezmem_allocCount := 1024
    trace := [] }

/-- The allocator's answer to call `op` is fresh for the registry of `s`: a non-null pointer
returned by `malloc` / `calloc` has no record in `s`, and a non-null pointer returned by
`realloc(ptr, ..)` is `ptr` itself or has no record in `s`. -/
def Op.fresh (s : State) : Op → Bool
  | .malloc ret _ _ _ _ => decide (ret = 0 ∨ ¬ s.tracked ret)
  | .calloc ret _ _ _ _ _ => decide (ret = 0 ∨ ¬ s.tracked ret)
  | .realloc ret ptr _ _ _ _ => decide (ret = 0 ∨ ret = ptr ∨ ¬ s.tracked ret)
  | _ => true

/-- Every allocator answer along the run of `ops` from `s` is fresh for the registry at the
moment of the call. -/
def freshRun (w : Nat) : State → List Op → Bool
  | _, [] => true
  | s, op :: ops => op.fresh s && freshRun w (step w s op) ops

/-- Under TRACK: `malloc` returns 1000; `realloc(1000, 0)` returns `NULL` (an allocator that
releases the block on a resize to size 0 and reports `NULL`); `malloc` returns the released
address 1000 again. -/
def dupOpsTrack : List Op :=
  [Op.init EZMEM_DEBUG_TRACK, Op.malloc 1000 16 "a.c" 1 "f", Op.realloc 0 1000 0 "a.c" 2 "f",
    Op.malloc 1000 16 "a.c" 3 "f"]

/-- Under the mode value 4: `malloc` returns 1000; `ez_free_dbg(1000)` releases it; `malloc`
returns the released address 1000 again. -/
def dupOpsMode4 : List Op :=
  [Op.init 4, Op.malloc 1000 16 "a.c" 1 "f", Op.free 1000 "a.c" 2 "f",
    Op.malloc 1000 16 "a.c" 3 "f"]

/-- A run with fresh allocator answers: allocate 1000, resize it in place, resize it to 2000,
allocate 1000 again, release 2000. -/
def freshOps : List Op :=
  [Op.init EZMEM_DEBUG_STRICT, Op.malloc 1000 16 "a.c" 1 "f", Op.realloc 1000 1000 32 "a.c" 2 "f",
    Op.realloc 2000 1000 64 "a.c" 3 "f", Op.calloc 1000 4 4 "a.c" 4 "f",
    Op.free 2000 "a.c" 5 "f"]

/-- The call is an allocate (`ez_malloc_dbg`), a zero-allocate (`ez_calloc_dbg`) or a release
(`ez_free_dbg`). -/
def Op.isAllocOrFree : Op → Bool
  | .malloc _ _ _ _ _ => true
  | .calloc _ _ _ _ _ _ => true
  | .free _ _ _ _ => true
  | _ => false

/-- The pointers that were successfully allocated and not released since, after the calls `ops`,
given those outstanding before (`live`): a successful allocation adds the returned pointer, a
release takes one occurrence of the released pointer away (and changes nothing when the pointer
is not outstanding). -/
def outstanding : List Nat → List Op → List Nat
  | live, [] => live
  | live, Op.malloc ret _ _ _ _ :: ops => outstanding (if ret = 0 then live else ret :: live) ops
  | live, Op.calloc ret _ _ _ _ _ :: ops => outstanding (if ret = 0 then live else ret :: live) ops
  | live, Op.free ptr _ _ _ :: ops => outstanding (live.erase ptr) ops
  | live, _ :: ops => outstanding live ops

/-- Allocate 1000 and 2000, release 1000, allocate 1000 again, release both, and a failed
allocation at the end. -/
def pairedOps : List Op :=
  [Op.malloc 1000 16 "a.c" 1 "f", Op.calloc 2000 4 8 "a.c" 2 "f", Op.free 1000 "a.c" 3 "f",
    Op.malloc 1000 32 "a.c" 4 "f", Op.free 2000 "a.c" 5 "f", Op.free 1000 "a.c" 6 "f",
    Op.malloc 0 64 "a.c" 7 "f"]

/-- A state at mode OFF whose buffer holds one record (pointer 100) left from an earlier mode. -/
def demoOff : State :=
  { demoTrack with ezmem_debugMode := EZMEM_DEBUG_OFF }

/-- A state at mode LOG whose buffer holds one record (pointer 100) left from an earlier mode. -/
def demoLog : State :=
  { demoTrack with ezmem_debugMode := EZMEM_DEBUG_LOG }

/-- The "Leak:" line `ezmem_exit` writes for record `r`. -/
def leakLine (r : s_ezmemRecord) : Event :=
  Event.eprintf (Msg.leak_line r.ptr r.size r.file r.line r.func)

/-- A TRACK-mode state with two records: pointers 100 (size 16) and 200 (size 32). -/
def demoTwo : State :=
  (ez_malloc_dbg demoTrack 200 32 "a.c" 2 "f").2

/-! ## The buffer accesses of each function -/

/-- One access to `ezmem_allocBuffer`: a read or a write of the entry at an index. -/
inductive Access where
  | read (i : Nat)
  | write (i : Nat)
deriving DecidableEq

/-- The index an access goes to. -/
def Access.index : Access → Nat
  | .read i => i
  | .write i => i

/-- Accesses of the loop of `ezmem_find_alloc` from index `i`: each iteration reads
`ezmem_allocBuffer[i].ptr`, and the loop stops at the first match. -/
def ezmem_find_alloc_loop_acc (buf : Nat → s_ezmemRecord) (count ptr : Nat) :
    Nat → Nat → List Access
  | 0, _ => []
  | fuel + 1, i =>
    if i < count then
      Access.read i ::
        (if (buf i).ptr = ptr then [] else ezmem_find_alloc_loop_acc buf count ptr fuel (i + 1))
    else []

/-- Accesses of `ezmem_find_alloc`. -/
def ezmem_find_alloc_acc (s : State) (ptr : Nat) : List Access :=
  ezmem_find_alloc_loop_acc s.ezmem_allocBuffer s.ezmem_allocCount ptr s.ezmem_allocCount 0

/-- Accesses of the compaction loop of `ezmem_remove_alloc` from index `i`: each iteration reads
`ezmem_allocBuffer[i + 1]` and writes `ezmem_allocBuffer[i]`. -/
def ezmem_remove_alloc_loop_acc (count : Nat) : Nat → Nat → List Access
  | 0, _ => []
  | fuel + 1, i =>
    if i < count - 1 then
      Access.read (i + 1) :: Access.write i :: ezmem_remove_alloc_loop_acc count fuel (i + 1)
    else []

/-- Accesses of `ezmem_remove_alloc`: those of the lookup, then, when a record was found, those
of the compaction loop. -/
def ezmem_remove_alloc_acc (s : State) (ptr : Nat) : List Access :=
  ezmem_find_alloc_acc s ptr ++
    (if ezmem_find_alloc s ptr ≥ 0 then
      ezmem_remove_alloc_loop_acc s.ezmem_allocCount s.ezmem_allocCount
        (ezmem_find_alloc s ptr).toNat
    else [])

/-- Accesses of the insert: the five field assignments to `ezmem_allocBuffer[ezmem_allocCount]`. -/
def State.push_acc (s : State) : List Access :=
  List.replicate 5 (Access.write s.ezmem_allocCount)

/-- Accesses of `ez_malloc_dbg`, `ret` being the allocator's result: those of the insert. -/
def ez_malloc_dbg_acc (s : State) (ret : Nat) : List Access :=
  if s.ezmem_debugMode ≠ 0 then
    if ret = 0 then []
    else if s.ezmem_debugMode > EZMEM_DEBUG_LOG ∧ s.ezmem_allocCount < EZMEM_MAX_ALLOCATIONS then
      s.push_acc
    else []
  else []

/-- Accesses of `ez_calloc_dbg`, `ret` being the allocator's result: those of the insert. -/
def ez_calloc_dbg_acc (s : State) (ret : Nat) : List Access :=
  if s.ezmem_debugMode ≠ 0 then
    if ret = 0 then []
    else if s.ezmem_debugMode > EZMEM_DEBUG_LOG ∧ s.ezmem_allocCount < EZMEM_MAX_ALLOCATIONS then
      s.push_acc
    else []
  else []

/-- Accesses of `ez_realloc_dbg`, `ret` being the allocator's result: those of
`ezmem_remove_alloc(ptr)`, then those of the insert. -/
def ez_realloc_dbg_acc (s : State) (ret ptr : Nat) : List Access :=
  if s.ezmem_debugMode ≠ 0 then
    if ret = 0 then []
    else if s.ezmem_debugMode > EZMEM_DEBUG_LOG then
      ezmem_remove_alloc_acc s ptr ++
        (if (ezmem_remove_alloc s ptr).2.ezmem_allocCount < EZMEM_MAX_ALLOCATIONS then
          (ezmem_remove_alloc s ptr).2.push_acc
        else [])
    else []
  else []

/-- Accesses of the loop of `ezmem_exit` from index `i`: each iteration reads
`ezmem_allocBuffer[i]`. -/
def ezmem_exit_loop_acc (count : Nat) : Nat → Nat → List Access
  | 0, _ => []
  | fuel + 1, i =>
    if i < count then Access.read i :: ezmem_exit_loop_acc count fuel (i + 1) else []

/-- Accesses of `ezmem_exit`. -/
def ezmem_exit_acc (s : State) : List Access :=
  if s.ezmem_debugMode ≥ EZMEM_DEBUG_TRACK ∧ s.ezmem_allocCount > 0 then
    ezmem_exit_loop_acc s.ezmem_allocCount s.ezmem_allocCount 0
  else []

/-- The smallest value the C standard allows for `INT_MAX`. -/
def INT_MAX_LEAST : Int := 32767

/-- The state after `ezmem_init(4)` and the 1024 successful allocations of `demoCalls`: the mode
value is 4 and the registry is full. -/
def demoFull4 : State :=
  run 64 State.initial (Op.init 4 :: demoCalls.map mallocOp)

/-! ## The loops -/

theorem find_loop_none (buf : Nat → s_ezmemRecord) (count ptr : Nat) :
    ∀ fuel i, (∀ j, i ≤ j → j < count → (buf j).ptr ≠ ptr) →
      ezmem_find_alloc_loop buf count ptr fuel i = -1 := by
  intro fuel
  induction fuel with
  | zero => intro i _; rfl
  | succ n ih =>
    intro i h
    unfold ezmem_find_alloc_loop
    by_cases hi : i < count
    · have hne : (buf i).ptr ≠ ptr := h i (Nat.le_refl i) hi
      rw [if_pos hi, if_neg hne]
      exact ih (i + 1) (fun j hj hjc => h j (by omega) hjc)
    · rw [if_neg hi]

theorem find_loop_some (buf : Nat → s_ezmemRecord) (count ptr k : Nat) (hk : k < count)
    (hp : (buf k).ptr = ptr) :
    ∀ fuel i, count ≤ i + fuel → i ≤ k → (∀ j, i ≤ j → j < k → (buf j).ptr ≠ ptr) →
      ezmem_find_alloc_loop buf count ptr fuel i = (k : Int) := by
  intro fuel
  induction fuel with
  | zero => intro i hf hik _; omega
  | succ n ih =>
    intro i hf hik h
    unfold ezmem_find_alloc_loop
    have hi : i < count := by omega
    rw [if_pos hi]
    by_cases hpi : (buf i).ptr = ptr
    · rw [if_pos hpi]
      have : ¬ i < k := fun hlt => h i (Nat.le_refl i) hlt hpi
      have : i = k := by omega
      rw [this]
    · rw [if_neg hpi]
      have hne : i ≠ k := fun e => hpi (e ▸ hp)
      exact ih (i + 1) (by omega) (by omega) (fun j hj hjk => h j (by omega) hjk)

theorem remove_loop_apply (count : Nat) :
    ∀ fuel i buf j, count ≤ i + fuel + 1 →
      ezmem_remove_alloc_loop count fuel i buf j
        = if i ≤ j ∧ j < count - 1 then buf (j + 1) else buf j := by
  intro fuel
  induction fuel with
  | zero =>
    intro i buf j hf
    have : ¬ (i ≤ j ∧ j < count - 1) := by omega
    rw [if_neg this]; rfl
  | succ n ih =>
    intro i buf j hf
    unfold ezmem_remove_alloc_loop
    by_cases hi : i < count - 1
    · rw [if_pos hi, ih (i + 1) _ j (by omega)]
      unfold bufWrite
      by_cases h1 : i + 1 ≤ j ∧ j < count - 1
      · have h2 : i ≤ j ∧ j < count - 1 := by omega
        have h3 : j + 1 ≠ i := by omega
        rw [if_pos h1, if_pos h2, if_neg h3]
      · rw [if_neg h1]
        by_cases hji : j = i
        · have h2 : i ≤ j ∧ j < count - 1 := by omega
          rw [if_pos hji, if_pos h2, hji]
        · have h2 : ¬ (i ≤ j ∧ j < count - 1) := by omega
          rw [if_neg hji, if_neg h2]
    · have h2 : ¬ (i ≤ j ∧ j < count - 1) := by omega
      rw [if_neg hi, if_neg h2]

/-! ## The registry as a list -/

theorem mem_records {s : State} {r : s_ezmemRecord} :
    r ∈ s.records ↔ ∃ i, i < s.ezmem_allocCount ∧ s.ezmem_allocBuffer i = r := by
  unfold State.records
  simp [List.mem_map, List.mem_range]

theorem tracked_iff_records {s : State} {p : Nat} :
    s.tracked p ↔ ∃ r ∈ s.records, r.ptr = p := by
  constructor
  · rintro ⟨i, hi, hp⟩
    exact ⟨s.ezmem_allocBuffer i, mem_records.2 ⟨i, hi, rfl⟩, hp⟩
  · rintro ⟨r, hr, hp⟩
    obtain ⟨i, hi, rfl⟩ := mem_records.1 hr
    exact ⟨i, hi, hp⟩

theorem length_records (s : State) : s.records.length = s.ezmem_allocCount := by
  simp [State.records]

theorem find_alloc_untracked {s : State} {p : Nat} (h : ¬ s.tracked p) :
    ezmem_find_alloc s p = -1 := by
  unfold ezmem_find_alloc
  apply find_loop_none
  intro j _ hj hp
  exact h ⟨j, hj, hp⟩

theorem find_alloc_tracked {s : State} {p : Nat} (h : s.tracked p) :
    ∃ k, k < s.ezmem_allocCount ∧ (s.ezmem_allocBuffer k).ptr = p ∧
      (∀ j, j < k → (s.ezmem_allocBuffer j).ptr ≠ p) ∧ ezmem_find_alloc s p = (k : Int) := by
  classical
  have hex : ∃ k, k < s.ezmem_allocCount ∧ (s.ezmem_allocBuffer k).ptr = p := h
  refine ⟨Nat.find hex, (Nat.find_spec hex).1, (Nat.find_spec hex).2, ?_, ?_⟩
  · intro j hj hp
    exact Nat.find_min hex hj ⟨by have := (Nat.find_spec hex).1; omega, hp⟩
  · unfold ezmem_find_alloc
    apply find_loop_some _ _ _ _ (Nat.find_spec hex).1 (Nat.find_spec hex).2
    · omega
    · omega
    · intro j _ hj hp
      exact Nat.find_min hex hj ⟨by have := (Nat.find_spec hex).1; omega, hp⟩

theorem remove_alloc_untracked {s : State} {p : Nat} (h : ¬ s.tracked p) :
    ezmem_remove_alloc s p = (0, s) := by
  unfold ezmem_remove_alloc
  simp [find_alloc_untracked h]

theorem remove_alloc_tracked {s : State} {p : Nat} (h : s.tracked p) :
    ∃ k, k < s.ezmem_allocCount ∧ (s.ezmem_allocBuffer k).ptr = p ∧
      (∀ j, j < k → (s.ezmem_allocBuffer j).ptr ≠ p) ∧
      ezmem_remove_alloc s p =
        (1, { s with
              ezmem_allocBuffer := compacted s.ezmem_allocBuffer s.ezmem_allocCount k
              ezmem_allocCount := s.ezmem_allocCount - 1 }) := by
  obtain ⟨k, hk, hp, hmin, hfind⟩ := find_alloc_tracked h
  refine ⟨k, hk, hp, hmin, ?_⟩
  unfold ezmem_remove_alloc
  have hloop : ezmem_remove_alloc_loop s.ezmem_allocCount s.ezmem_allocCount k
      s.ezmem_allocBuffer = compacted s.ezmem_allocBuffer s.ezmem_allocCount k := by
    funext j
    rw [remove_loop_apply _ _ _ _ _ (by omega)]
    rfl
  simp [hfind, hloop]

theorem range_map_split (f : Nat → s_ezmemRecord) (k m : Nat) :
    (List.range (k + 1 + m)).map f
      = (List.range k).map f ++ f k :: (List.range m).map (fun j => f (k + 1 + j)) := by
  rw [List.range_add, List.range_succ]
  simp [List.map_append, List.map_map, Function.comp_def]

theorem range_map_compacted (f : Nat → s_ezmemRecord) (k m : Nat) :
    (List.range (k + 1 + m - 1)).map (compacted f (k + 1 + m) k)
      = (List.range k).map f ++ (List.range m).map (fun j => f (k + 1 + j)) := by
  have e : k + 1 + m - 1 = k + m := by omega
  rw [e, List.range_add, List.map_append, List.map_map]
  congr 1
  · apply List.map_congr_left
    intro j hj
    have hj := List.mem_range.1 hj
    unfold compacted
    rw [if_neg (by omega)]
  · apply List.map_congr_left
    intro j hj
    have hj := List.mem_range.1 hj
    simp only [Function.comp_def, compacted]
    rw [if_pos (by omega)]
    congr 1; omega

/-- Removal at list level: the first record with pointer `p` is cut out, the rest stays in
order. -/
theorem records_remove_tracked {s : State} {p : Nat} (h : s.tracked p) :
    ∃ l1 r l2, s.records = l1 ++ r :: l2 ∧ r.ptr = p ∧ (∀ x ∈ l1, x.ptr ≠ p) ∧
      (ezmem_remove_alloc s p).1 = 1 ∧
      (ezmem_remove_alloc s p).2.records = l1 ++ l2 ∧
      (ezmem_remove_alloc s p).2.ezmem_allocCount + 1 = s.ezmem_allocCount ∧
      (ezmem_remove_alloc s p).2.ezmem_debugMode = s.ezmem_debugMode ∧
      (ezmem_remove_alloc s p).2.trace = s.trace := by
  obtain ⟨k, hk, hp, hmin, hrem⟩ := remove_alloc_tracked h
  obtain ⟨m, hm⟩ : ∃ m, s.ezmem_allocCount = k + 1 + m := ⟨s.ezmem_allocCount - (k + 1), by omega⟩
  refine ⟨(List.range k).map s.ezmem_allocBuffer, s.ezmem_allocBuffer k,
    (List.range m).map (fun j => s.ezmem_allocBuffer (k + 1 + j)), ?_, hp, ?_, ?_, ?_, ?_, ?_, ?_⟩
  · unfold State.records
    rw [hm, range_map_split]
  · intro x hx
    obtain ⟨j, hj, rfl⟩ := List.mem_map.1 hx
    exact hmin j (List.mem_range.1 hj)
  · rw [hrem]
  · rw [hrem]
    unfold State.records
    simp only [hm]
    exact range_map_compacted _ _ _
  · rw [hrem]; simp only; omega
  · rw [hrem]
  · rw [hrem]

/-- Appending a record at list level. -/
theorem records_push (s : State) (r : s_ezmemRecord) : (s.push r).records = s.records ++ [r] := by
  unfold State.push State.records
  simp only [List.range_succ, List.map_append, List.map_cons, List.map_nil]
  congr 1
  · apply List.map_congr_left
    intro j hj
    have hj := List.mem_range.1 hj
    unfold bufWrite
    rw [if_neg (by omega)]
  · simp [bufWrite]

@[simp] theorem records_emit (s : State) (e : Event) : (s.emit e).records = s.records := rfl
@[simp] theorem count_emit (s : State) (e : Event) :
    (s.emit e).ezmem_allocCount = s.ezmem_allocCount := rfl
@[simp] theorem mode_emit (s : State) (e : Event) :
    (s.emit e).ezmem_debugMode = s.ezmem_debugMode := rfl
@[simp] theorem buffer_emit (s : State) (e : Event) :
    (s.emit e).ezmem_allocBuffer = s.ezmem_allocBuffer := rfl
@[simp] theorem trace_emit (s : State) (e : Event) : (s.emit e).trace = s.trace ++ [e] := rfl
@[simp] theorem count_push (s : State) (r : s_ezmemRecord) :
    (s.push r).ezmem_allocCount = s.ezmem_allocCount + 1 := rfl
@[simp] theorem mode_push (s : State) (r : s_ezmemRecord) :
    (s.push r).ezmem_debugMode = s.ezmem_debugMode := rfl
@[simp] theorem trace_push (s : State) (r : s_ezmemRecord) : (s.push r).trace = s.trace := rfl

theorem tracked_emit (s : State) (e : Event) (p : Nat) : (s.emit e).tracked p ↔ s.tracked p :=
  Iff.rfl

/-! ## Registry lookup and removal (C9, C8) -/

/-- C9: `ezmem_find_alloc s p` returns the smallest index below `ezmem_allocCount` whose record
has pointer `p` when there is one, and returns `-1` exactly when no record among the first
`ezmem_allocCount` entries has pointer `p`; in every case the result is `-1` or an index below
the count. (The function reads the globals only: its embedding has no state to return.) -/
theorem find_alloc_spec (s : State) (p : Nat) :
    ((∃ i, i < s.ezmem_allocCount ∧ (s.ezmem_allocBuffer i).ptr = p) →
      ∃ k : Nat, ezmem_find_alloc s p = (k : Int) ∧ k < s.ezmem_allocCount ∧
        (s.ezmem_allocBuffer k).ptr = p ∧ ∀ j, j < k → (s.ezmem_allocBuffer j).ptr ≠ p) ∧
    (ezmem_find_alloc s p = -1 ↔ ∀ i, i < s.ezmem_allocCount → (s.ezmem_allocBuffer i).ptr ≠ p) ∧
    (ezmem_find_alloc s p = -1 ∨
      ∃ k : Nat, ezmem_find_alloc s p = (k : Int) ∧ k < s.ezmem_allocCount) := by
  refine ⟨?_, ?_, ?_⟩
  · intro h
    obtain ⟨k, hk, hp, hmin, hfind⟩ := find_alloc_tracked (s := s) (p := p) h
    exact ⟨k, hfind, hk, hp, hmin⟩
  · constructor
    · intro h i hi hp
      obtain ⟨k, _, _, _, hfind⟩ := find_alloc_tracked (s := s) (p := p) ⟨i, hi, hp⟩
      rw [hfind] at h
      omega
    · intro h
      exact find_alloc_untracked (fun ⟨i, hi, hp⟩ => h i hi hp)
  · by_cases h : s.tracked p
    · obtain ⟨k, hk, _, _, hfind⟩ := find_alloc_tracked h
      exact Or.inr ⟨k, hfind, hk⟩
    · exact Or.inl (find_alloc_untracked h)

/-- C8: `ezmem_remove_alloc s p` returns 1 exactly when some record has pointer `p` and 0
otherwise; when it returns 1 the registry splits as `l1 ++ r :: l2` with `r` the first record
whose pointer is `p`, and the new registry is `l1 ++ l2` (one record fewer, the others unchanged
and in the same order; mode and trace untouched); when it returns 0 the state is unchanged. -/
theorem remove_alloc_spec (s : State) (p : Nat) :
    ((ezmem_remove_alloc s p).1 = 1 ↔ ∃ r ∈ s.records, r.ptr = p) ∧
    ((ezmem_remove_alloc s p).1 = 0 ↔ ¬ ∃ r ∈ s.records, r.ptr = p) ∧
    ((ezmem_remove_alloc s p).1 = 1 →
      ∃ l1 r l2, s.records = l1 ++ r :: l2 ∧ r.ptr = p ∧ (∀ x ∈ l1, x.ptr ≠ p) ∧
        (ezmem_remove_alloc s p).2.records = l1 ++ l2 ∧
        (ezmem_remove_alloc s p).2.ezmem_allocCount + 1 = s.ezmem_allocCount ∧
        (ezmem_remove_alloc s p).2.ezmem_debugMode = s.ezmem_debugMode ∧
        (ezmem_remove_alloc s p).2.trace = s.trace) ∧
    ((ezmem_remove_alloc s p).1 = 0 → (ezmem_remove_alloc s p).2 = s) := by
  by_cases h : s.tracked p
  · obtain ⟨l1, r, l2, hsplit, hp, hmin, hret, hrec, hcount, hmode, htrace⟩ :=
      records_remove_tracked h
    have hex : ∃ r ∈ s.records, r.ptr = p := tracked_iff_records.1 h
    refine ⟨⟨fun _ => hex, fun _ => hret⟩, ⟨fun h0 => ?_, fun hn => absurd hex hn⟩, ?_, ?_⟩
    · rw [hret] at h0; omega
    · intro _
      exact ⟨l1, r, l2, hsplit, hp, hmin, hrec, hcount, hmode, htrace⟩
    · intro h0
      rw [hret] at h0; omega
  · have hnex : ¬ ∃ r ∈ s.records, r.ptr = p := fun hex => h (tracked_iff_records.2 hex)
    have hrem := remove_alloc_untracked h
    refine ⟨⟨fun h1 => ?_, fun hex => absurd hex hnex⟩, ⟨fun _ => hnex, fun _ => ?_⟩, ?_, ?_⟩
    · rw [hrem] at h1; simp at h1
    · rw [hrem]
    · intro h1
      rw [hrem] at h1; simp at h1
    · intro _
      rw [hrem]

/-! ## Release of an untracked pointer (C4, C5) -/

theorem freeCalls_append (t u : List Event) : freeCalls (t ++ u) = freeCalls t ++ freeCalls u := by
  induction t with
  | nil => rfl
  | cons e t ih => cases e <;> simp [freeCalls, ih]

/-- C4: under STRICT, releasing a pointer that has no record leaves the buffer, the count (hence
the records and their order) and the mode unchanged, appends exactly one line to the trace, the
error-level line "attempted to free untracked pointer" on standard error, and does not call the
underlying `free`. -/
theorem free_strict_untracked (s : State) (p : Nat) (file : String) (line : Int) (func : String)
    (hmode : s.ezmem_debugMode = EZMEM_DEBUG_STRICT) (hp : ∀ r ∈ s.records, r.ptr ≠ p) :
    (ez_free_dbg s p file line func).ezmem_allocBuffer = s.ezmem_allocBuffer ∧
    (ez_free_dbg s p file line func).ezmem_allocCount = s.ezmem_allocCount ∧
    (ez_free_dbg s p file line func).records = s.records ∧
    (ez_free_dbg s p file line func).ezmem_debugMode = s.ezmem_debugMode ∧
    (ez_free_dbg s p file line func).trace
      = s.trace ++ [Event.eprintf (Msg.err_untracked p file line func)] ∧
    (Msg.err_untracked p file line func).level = Level.error ∧
    freeCalls (ez_free_dbg s p file line func).trace = freeCalls s.trace := by
  have hnt : ¬ s.tracked p := fun h => by
    obtain ⟨r, hr, hrp⟩ := tracked_iff_records.1 h
    exact hp r hr hrp
  have hfree : ez_free_dbg s p file line func
      = s.emit (Event.eprintf (Msg.err_untracked p file line func)) := by
    unfold ez_free_dbg
    simp [hmode, remove_alloc_untracked hnt, EZMEM_DEBUG_STRICT, EZMEM_DEBUG_OFF, EZMEM_DEBUG_LOG,
      EZMEM_DEBUG_TRACK]
  rw [hfree]
  refine ⟨rfl, rfl, rfl, rfl, rfl, rfl, ?_⟩
  rw [trace_emit, freeCalls_append]
  simp [freeCalls]

/-- C4 at a STRICT state that tracks pointer 100: release of the unknown pointer 200. -/
theorem free_strict_untracked_witness :
    (ez_free_dbg demoStrict 200 "b.c" 7 "g").ezmem_allocBuffer = demoStrict.ezmem_allocBuffer ∧
    (ez_free_dbg demoStrict 200 "b.c" 7 "g").ezmem_allocCount = demoStrict.ezmem_allocCount ∧
    (ez_free_dbg demoStrict 200 "b.c" 7 "g").records = demoStrict.records ∧
    (ez_free_dbg demoStrict 200 "b.c" 7 "g").ezmem_debugMode = demoStrict.ezmem_debugMode ∧
    (ez_free_dbg demoStrict 200 "b.c" 7 "g").trace
      = demoStrict.trace ++ [Event.eprintf (Msg.err_untracked 200 "b.c" 7 "g")] ∧
    (Msg.err_untracked 200 "b.c" 7 "g").level = Level.error ∧
    freeCalls (ez_free_dbg demoStrict 200 "b.c" 7 "g").trace = freeCalls demoStrict.trace :=
  free_strict_untracked demoStrict 200 "b.c" 7 "g" (by decide) (by decide)

/-- C5: under TRACK, releasing a pointer that has no record leaves the buffer, the count (hence
the records and their order) and the mode unchanged, appends to the trace exactly the warning
line "freed untracked pointer" on standard error (no "freed" line on standard output) followed
by one call `free(p)` of the underlying release. -/
theorem free_track_untracked (s : State) (p : Nat) (file : String) (line : Int) (func : String)
    (hmode : s.ezmem_debugMode = EZMEM_DEBUG_TRACK) (hp : ∀ r ∈ s.records, r.ptr ≠ p) :
    (ez_free_dbg s p file line func).ezmem_allocBuffer = s.ezmem_allocBuffer ∧
    (ez_free_dbg s p file line func).ezmem_allocCount = s.ezmem_allocCount ∧
    (ez_free_dbg s p file line func).records = s.records ∧
    (ez_free_dbg s p file line func).ezmem_debugMode = s.ezmem_debugMode ∧
    (ez_free_dbg s p file line func).trace
      = s.trace ++ [Event.eprintf (Msg.warn_untracked p file line func), Event.call_free p] ∧
    (Msg.warn_untracked p file line func).level = Level.warning ∧
    freeCalls (ez_free_dbg s p file line func).trace = freeCalls s.trace ++ [p] := by
  have hnt : ¬ s.tracked p := fun h => by
    obtain ⟨r, hr, hrp⟩ := tracked_iff_records.1 h
    exact hp r hr hrp
  have hfree : ez_free_dbg s p file line func
      = (s.emit (Event.eprintf (Msg.warn_untracked p file line func))).emit
          (Event.call_free p) := by
    unfold ez_free_dbg
    simp [hmode, remove_alloc_untracked hnt, EZMEM_DEBUG_STRICT, EZMEM_DEBUG_OFF, EZMEM_DEBUG_LOG,
      EZMEM_DEBUG_TRACK]
  rw [hfree]
  refine ⟨rfl, rfl, rfl, rfl, ?_, rfl, ?_⟩
  · simp [trace_emit]
  · simp [trace_emit, freeCalls_append, freeCalls]

/-- C5 at a TRACK state that tracks pointer 100: release of the unknown pointer 200. -/
theorem free_track_untracked_witness :
    (ez_free_dbg demoTrack 200 "b.c" 7 "g").ezmem_allocBuffer = demoTrack.ezmem_allocBuffer ∧
    (ez_free_dbg demoTrack 200 "b.c" 7 "g").ezmem_allocCount = demoTrack.ezmem_allocCount ∧
    (ez_free_dbg demoTrack 200 "b.c" 7 "g").records = demoTrack.records ∧
    (ez_free_dbg demoTrack 200 "b.c" 7 "g").ezmem_debugMode = demoTrack.ezmem_debugMode ∧
    (ez_free_dbg demoTrack 200 "b.c" 7 "g").trace
      = demoTrack.trace ++ [Event.eprintf (Msg.warn_untracked 200 "b.c" 7 "g"),
          Event.call_free 200] ∧
    (Msg.warn_untracked 200 "b.c" 7 "g").level = Level.warning ∧
    freeCalls (ez_free_dbg demoTrack 200 "b.c" 7 "g").trace = freeCalls demoTrack.trace ++ [200] :=
  free_track_untracked demoTrack 200 "b.c" 7 "g" (by decide) (by decide)

/-! ## Pass-through of the allocator's result (C10) -/

theorem remove_alloc_trace (s : State) (p : Nat) : (ezmem_remove_alloc s p).2.trace = s.trace := by
  unfold ezmem_remove_alloc
  simp only []
  split <;> rfl

theorem remove_alloc_mode (s : State) (p : Nat) :
    (ezmem_remove_alloc s p).2.ezmem_debugMode = s.ezmem_debugMode := by
  unfold ezmem_remove_alloc
  simp only []
  split <;> rfl

theorem remove_alloc_count_le (s : State) (p : Nat) :
    (ezmem_remove_alloc s p).2.ezmem_allocCount ≤ s.ezmem_allocCount := by
  unfold ezmem_remove_alloc
  simp only []
  split
  · exact Nat.sub_le _ _
  · exact Nat.le_refl _

/-- C10: for every state (mode and registry), every argument and every value `ret` the underlying
allocator returns, each of `ez_malloc_dbg`, `ez_calloc_dbg`, `ez_realloc_dbg` returns exactly
`ret`, and what it appends to the trace starts with the one call of the underlying operation on
the caller's arguments, followed only by output lines (no further call of the C library). -/
theorem alloc_passthrough (w : Nat) (s : State) (ret nmemb ptr size : Nat) (file : String)
    (line : Int) (func : String) :
    ((ez_malloc_dbg s ret size file line func).1 = ret ∧
      ∃ out, (ez_malloc_dbg s ret size file line func).2.trace
          = s.trace ++ Event.call_malloc size ret :: out ∧ ∀ e ∈ out, e.isCall = false) ∧
    ((ez_calloc_dbg w s ret nmemb size file line func).1 = ret ∧
      ∃ out, (ez_calloc_dbg w s ret nmemb size file line func).2.trace
          = s.trace ++ Event.call_calloc nmemb size ret :: out ∧ ∀ e ∈ out, e.isCall = false) ∧
    ((ez_realloc_dbg s ret ptr size file line func).1 = ret ∧
      ∃ out, (ez_realloc_dbg s ret ptr size file line func).2.trace
          = s.trace ++ Event.call_realloc ptr size ret :: out ∧ ∀ e ∈ out, e.isCall = false) := by
  refine ⟨⟨?_, ?_⟩, ⟨?_, ?_⟩, ⟨?_, ?_⟩⟩
  · unfold ez_malloc_dbg
    simp only []
    split_ifs <;> rfl
  · unfold ez_malloc_dbg
    simp only []
    split_ifs
    · exact ⟨[Event.eprintf (Msg.malloc_failed file line func size)], by simp, by simp [Event.isCall]⟩
    · exact ⟨[Event.printf (Msg.malloc_ok ret size file line func)], by simp, by simp [Event.isCall]⟩
    · exact ⟨[Event.printf (Msg.malloc_ok ret size file line func)], by simp, by simp [Event.isCall]⟩
    · exact ⟨[], by simp, by simp⟩
  · unfold ez_calloc_dbg
    simp only []
    split_ifs <;> rfl
  · unfold ez_calloc_dbg
    simp only []
    split_ifs
    · exact ⟨[Event.eprintf (Msg.calloc_failed file line func nmemb size)], by simp,
        by simp [Event.isCall]⟩
    · exact ⟨[Event.printf (Msg.calloc_ok ret nmemb size file line func)], by simp,
        by simp [Event.isCall]⟩
    · exact ⟨[Event.printf (Msg.calloc_ok ret nmemb size file line func)], by simp,
        by simp [Event.isCall]⟩
    · exact ⟨[], by simp, by simp⟩
  · unfold ez_realloc_dbg
    simp only []
    split_ifs <;> rfl
  · unfold ez_realloc_dbg
    simp only []
    split_ifs
    · exact ⟨[Event.eprintf (Msg.realloc_failed file line func size)], by simp,
        by simp [Event.isCall]⟩
    · exact ⟨[Event.printf (Msg.realloc_ok ret ptr size file line func)],
        by simp [remove_alloc_trace], by simp [Event.isCall]⟩
    · exact ⟨[Event.printf (Msg.realloc_ok ret ptr size file line func)],
        by simp [remove_alloc_trace], by simp [Event.isCall]⟩
    · exact ⟨[Event.printf (Msg.realloc_ok ret ptr size file line func)], by simp,
        by simp [Event.isCall]⟩
    · exact ⟨[], by simp, by simp⟩

/-! ## The capacity bound (C2) -/

theorem malloc_count_le (s : State) (ret size : Nat) (file : String) (line : Int) (func : String)
    (h : s.ezmem_allocCount ≤ EZMEM_MAX_ALLOCATIONS) :
    (ez_malloc_dbg s ret size file line func).2.ezmem_allocCount ≤ EZMEM_MAX_ALLOCATIONS := by
  unfold ez_malloc_dbg
  simp only []
  split_ifs with h1 h2 h3
  · exact h
  · have := h3.2
    simp only [count_push, count_emit] at this ⊢
    omega
  · exact h
  · exact h

theorem calloc_count_le (w : Nat) (s : State) (ret nmemb size : Nat) (file : String) (line : Int)
    (func : String) (h : s.ezmem_allocCount ≤ EZMEM_MAX_ALLOCATIONS) :
    (ez_calloc_dbg w s ret nmemb size file line func).2.ezmem_allocCount
      ≤ EZMEM_MAX_ALLOCATIONS := by
  unfold ez_calloc_dbg
  simp only []
  split_ifs with h1 h2 h3
  · exact h
  · have := h3.2
    simp only [count_push, count_emit] at this ⊢
    omega
  · exact h
  · exact h

theorem realloc_count_le (s : State) (ret ptr size : Nat) (file : String) (line : Int)
    (func : String) (h : s.ezmem_allocCount ≤ EZMEM_MAX_ALLOCATIONS) :
    (ez_realloc_dbg s ret ptr size file line func).2.ezmem_allocCount
      ≤ EZMEM_MAX_ALLOCATIONS := by
  unfold ez_realloc_dbg
  simp only []
  split_ifs with h1 h2 h3 h4
  · exact h
  · simp only [count_push] at h4 ⊢
    omega
  · have := remove_alloc_count_le
      ((s.emit (Event.call_realloc ptr size ret)).emit
        (Event.printf (Msg.realloc_ok ret ptr size file line func))) ptr
    simp only [count_emit] at this
    exact Nat.le_trans this h
  · exact h
  · exact h

theorem free_count_le (s : State) (ptr : Nat) (file : String) (line : Int) (func : String) :
    (ez_free_dbg s ptr file line func).ezmem_allocCount ≤ s.ezmem_allocCount := by
  unfold ez_free_dbg
  simp only []
  split_ifs <;> first
    | exact Nat.le_refl _
    | exact remove_alloc_count_le s ptr

theorem step_count_le (w : Nat) (s : State) (op : Op)
    (h : s.ezmem_allocCount ≤ EZMEM_MAX_ALLOCATIONS) :
    (step w s op).ezmem_allocCount ≤ EZMEM_MAX_ALLOCATIONS := by
  cases op with
  | init dbg => exact h
  | malloc ret size file line func => exact malloc_count_le s ret size file line func h
  | calloc ret nmemb size file line func => exact calloc_count_le w s ret nmemb size file line func h
  | realloc ret ptr size file line func => exact realloc_count_le s ret ptr size file line func h
  | free ptr file line func => exact Nat.le_trans (free_count_le s ptr file line func) h
  | remove ptr => exact Nat.le_trans (remove_alloc_count_le s ptr) h

theorem run_count_le (w : Nat) (ops : List Op) :
    ∀ s : State, s.ezmem_allocCount ≤ EZMEM_MAX_ALLOCATIONS →
      (run w s ops).ezmem_allocCount ≤ EZMEM_MAX_ALLOCATIONS := by
  induction ops with
  | nil => intro s h; exact h
  | cons op ops ih =>
    intro s h
    exact ih (step w s op) (step_count_le w s op h)

/-- C2: in every state reached from the initial state (empty registry) by any sequence of
`ezmem_init`, `ez_malloc_dbg`, `ez_calloc_dbg`, `ez_realloc_dbg`, `ez_free_dbg` and
`ezmem_remove_alloc` calls, with any mode values and any allocator results, the record count is
at most `EZMEM_MAX_ALLOCATIONS`, which is 1024. -/
theorem count_le_max (w : Nat) (ops : List Op) :
    (run w State.initial ops).ezmem_allocCount ≤ EZMEM_MAX_ALLOCATIONS ∧
    EZMEM_MAX_ALLOCATIONS = 1024 :=
  ⟨run_count_le w ops State.initial (Nat.zero_le _), rfl⟩

/-! ## Effect of each call on the registry, at list level -/

theorem remove_alloc_emit (s : State) (e : Event) (p : Nat) :
    ezmem_remove_alloc (s.emit e) p
      = ((ezmem_remove_alloc s p).1, (ezmem_remove_alloc s p).2.emit e) := by
  unfold ezmem_remove_alloc ezmem_find_alloc
  simp only [count_emit, buffer_emit]
  split <;> rfl

theorem ptrs_remove (s : State) (p : Nat) : (ezmem_remove_alloc s p).2.ptrs = s.ptrs.erase p := by
  by_cases h : s.tracked p
  · obtain ⟨l1, r, l2, hsplit, hp, hmin, _, hrec, _⟩ := records_remove_tracked h
    have hnot : p ∉ l1.map (fun r => r.ptr) := by
      intro hmem
      obtain ⟨x, hx, hxp⟩ := List.mem_map.1 hmem
      exact hmin x hx hxp
    unfold State.ptrs
    rw [hrec, hsplit, List.map_append, List.map_append, List.map_cons, hp,
      List.erase_append_right _ hnot, List.erase_cons_head]
  · have hnot : p ∉ s.ptrs := by
      intro hmem
      obtain ⟨x, hx, hxp⟩ := List.mem_map.1 hmem
      exact h (tracked_iff_records.2 ⟨x, hx, hxp⟩)
    rw [remove_alloc_untracked h, List.erase_of_not_mem hnot]

theorem malloc_records (s : State) (ret size : Nat) (file : String) (line : Int) (func : String) :
    (ez_malloc_dbg s ret size file line func).2.records
      = if s.ezmem_debugMode > EZMEM_DEBUG_LOG ∧ ret ≠ 0
            ∧ s.ezmem_allocCount < EZMEM_MAX_ALLOCATIONS
        then s.records ++ [⟨ret, size, file, line, func⟩] else s.records := by
  unfold ez_malloc_dbg
  simp only [EZMEM_DEBUG_LOG]
  split_ifs <;> simp_all [records_push]

theorem malloc_mode (s : State) (ret size : Nat) (file : String) (line : Int) (func : String) :
    (ez_malloc_dbg s ret size file line func).2.ezmem_debugMode = s.ezmem_debugMode := by
  unfold ez_malloc_dbg
  simp only []
  split_ifs <;> rfl

theorem malloc_count (s : State) (ret size : Nat) (file : String) (line : Int) (func : String) :
    (ez_malloc_dbg s ret size file line func).2.ezmem_allocCount
      = if s.ezmem_debugMode > EZMEM_DEBUG_LOG ∧ ret ≠ 0
            ∧ s.ezmem_allocCount < EZMEM_MAX_ALLOCATIONS
        then s.ezmem_allocCount + 1 else s.ezmem_allocCount := by
  unfold ez_malloc_dbg
  simp only [EZMEM_DEBUG_LOG]
  split_ifs <;> simp_all

theorem calloc_records (w : Nat) (s : State) (ret nmemb size : Nat) (file : String) (line : Int)
    (func : String) :
    (ez_calloc_dbg w s ret nmemb size file line func).2.records
      = if s.ezmem_debugMode > EZMEM_DEBUG_LOG ∧ ret ≠ 0
            ∧ s.ezmem_allocCount < EZMEM_MAX_ALLOCATIONS
        then s.records ++ [⟨ret, (nmemb * size) % 2 ^ w, file, line, func⟩] else s.records := by
  unfold ez_calloc_dbg
  simp only [EZMEM_DEBUG_LOG]
  split_ifs <;> simp_all [records_push]

theorem calloc_mode (w : Nat) (s : State) (ret nmemb size : Nat) (file : String) (line : Int)
    (func : String) :
    (ez_calloc_dbg w s ret nmemb size file line func).2.ezmem_debugMode = s.ezmem_debugMode := by
  unfold ez_calloc_dbg
  simp only []
  split_ifs <;> rfl

theorem realloc_records (s : State) (ret ptr size : Nat) (file : String) (line : Int)
    (func : String) :
    (ez_realloc_dbg s ret ptr size file line func).2.records
      = if s.ezmem_debugMode > EZMEM_DEBUG_LOG ∧ ret ≠ 0 then
          if (ezmem_remove_alloc s ptr).2.ezmem_allocCount < EZMEM_MAX_ALLOCATIONS
          then (ezmem_remove_alloc s ptr).2.records ++ [⟨ret, size, file, line, func⟩]
          else (ezmem_remove_alloc s ptr).2.records
        else s.records := by
  unfold ez_realloc_dbg
  simp only [EZMEM_DEBUG_LOG, remove_alloc_emit]
  split_ifs <;> simp_all [records_push]

theorem realloc_mode (s : State) (ret ptr size : Nat) (file : String) (line : Int)
    (func : String) :
    (ez_realloc_dbg s ret ptr size file line func).2.ezmem_debugMode = s.ezmem_debugMode := by
  unfold ez_realloc_dbg
  simp only [remove_alloc_emit]
  split_ifs <;> simp [remove_alloc_mode]

theorem free_records (s : State) (ptr : Nat) (file : String) (line : Int) (func : String) :
    (ez_free_dbg s ptr file line func).records
      = if s.ezmem_debugMode = EZMEM_DEBUG_TRACK ∨ s.ezmem_debugMode = EZMEM_DEBUG_STRICT
        then (ezmem_remove_alloc s ptr).2.records else s.records := by
  unfold ez_free_dbg
  simp only [EZMEM_DEBUG_OFF, EZMEM_DEBUG_LOG, EZMEM_DEBUG_TRACK, EZMEM_DEBUG_STRICT]
  split_ifs <;> simp_all

theorem free_mode (s : State) (ptr : Nat) (file : String) (line : Int) (func : String) :
    (ez_free_dbg s ptr file line func).ezmem_debugMode = s.ezmem_debugMode := by
  unfold ez_free_dbg
  simp only []
  split_ifs <;> simp [remove_alloc_mode]

/-! ## Allocation beyond the capacity (C3) -/

theorem run_append (w : Nat) (s : State) (ops1 ops2 : List Op) :
    run w s (ops1 ++ ops2) = run w (run w s ops1) ops2 := by
  unfold run
  rw [List.foldl_append]

theorem run_mallocs (w : Nat) (calls : List s_ezmemRecord) :
    ∀ s : State, s.ezmem_debugMode = EZMEM_DEBUG_TRACK → (∀ c ∈ calls, c.ptr ≠ 0) →
      s.ezmem_allocCount + calls.length ≤ EZMEM_MAX_ALLOCATIONS →
      (run w s (calls.map mallocOp)).records = s.records ++ calls ∧
      (run w s (calls.map mallocOp)).ezmem_debugMode = EZMEM_DEBUG_TRACK ∧
      (run w s (calls.map mallocOp)).ezmem_allocCount = s.ezmem_allocCount + calls.length := by
  induction calls with
  | nil => intro s hm _ _; exact ⟨by simp [run], hm, rfl⟩
  | cons c calls ih =>
    intro s hm hok hlen
    have hc : c.ptr ≠ 0 := hok c (List.mem_cons_self _ _)
    have hlen2 : s.ezmem_allocCount + (calls.length + 1) ≤ EZMEM_MAX_ALLOCATIONS := by
      simpa using hlen
    have hcond : s.ezmem_debugMode > EZMEM_DEBUG_LOG ∧ c.ptr ≠ 0
        ∧ s.ezmem_allocCount < EZMEM_MAX_ALLOCATIONS :=
      ⟨by rw [hm]; decide, hc, by omega⟩
    have hrec := malloc_records s c.ptr c.size c.file c.line c.func
    have hcnt := malloc_count s c.ptr c.size c.file c.line c.func
    rw [if_pos hcond] at hrec hcnt
    have hmode := malloc_mode s c.ptr c.size c.file c.line c.func
    obtain ⟨h1, h2, h3⟩ := ih (ez_malloc_dbg s c.ptr c.size c.file c.line c.func).2
      (by rw [hmode, hm]) (fun x hx => hok x (List.mem_cons_of_mem _ hx)) (by rw [hcnt]; omega)
    have hrun : run w s ((c :: calls).map mallocOp)
        = run w (ez_malloc_dbg s c.ptr c.size c.file c.line c.func).2 (calls.map mallocOp) := rfl
    rw [hrun]
    refine ⟨?_, h2, ?_⟩
    · rw [h1, hrec]; simp
    · rw [h3, hcnt, List.length_cons]; omega

/-- C3: from an empty registry under TRACK, after `EZMEM_MAX_ALLOCATIONS` successful
`ez_malloc_dbg` calls (`calls`, no release in between) the registry holds exactly their records in
call order; one more successful call (`last`) returns the non-null pointer the underlying
`malloc` produced and leaves the registry at exactly those `EZMEM_MAX_ALLOCATIONS` records. -/
theorem malloc_beyond_capacity (w : Nat) (s0 : State) (calls : List s_ezmemRecord)
    (last : s_ezmemRecord) (hmode : s0.ezmem_debugMode = EZMEM_DEBUG_TRACK)
    (hempty : s0.ezmem_allocCount = 0) (hlen : calls.length = EZMEM_MAX_ALLOCATIONS)
    (hok : ∀ c ∈ calls, c.ptr ≠ 0) (hlast : last.ptr ≠ 0) :
    (run w s0 (calls.map mallocOp)).records = calls ∧
    (ez_malloc_dbg (run w s0 (calls.map mallocOp)) last.ptr last.size last.file last.line
        last.func).1 = last.ptr ∧
    (ez_malloc_dbg (run w s0 (calls.map mallocOp)) last.ptr last.size last.file last.line
        last.func).1 ≠ 0 ∧
    (run w s0 ((calls ++ [last]).map mallocOp)).records = calls ∧
    (run w s0 ((calls ++ [last]).map mallocOp)).ezmem_allocCount = EZMEM_MAX_ALLOCATIONS := by
  obtain ⟨h1, _, h3⟩ := run_mallocs w calls s0 hmode hok (by omega)
  have hrec0 : s0.records = [] := by simp [State.records, hempty]
  rw [hrec0, List.nil_append] at h1
  have hfirst : (ez_malloc_dbg (run w s0 (calls.map mallocOp)) last.ptr last.size last.file
      last.line last.func).1 = last.ptr := by
    unfold ez_malloc_dbg
    simp only []
    split_ifs <;> rfl
  have hfull : ¬ ((run w s0 (calls.map mallocOp)).ezmem_debugMode > EZMEM_DEBUG_LOG ∧ last.ptr ≠ 0
      ∧ (run w s0 (calls.map mallocOp)).ezmem_allocCount < EZMEM_MAX_ALLOCATIONS) := by
    rw [h3]; omega
  have hrun : run w s0 ((calls ++ [last]).map mallocOp)
      = (ez_malloc_dbg (run w s0 (calls.map mallocOp)) last.ptr last.size last.file last.line
          last.func).2 := by
    rw [List.map_append, run_append]; rfl
  refine ⟨h1, hfirst, ?_, ?_, ?_⟩
  · rw [hfirst]; exact hlast
  · rw [hrun, malloc_records, if_neg hfull, h1]
  · rw [hrun, malloc_count, if_neg hfull, h3]; omega

/-- C3 at 1024 allocations returning the pointers 1..1024, followed by one returning 2000. -/
theorem malloc_beyond_capacity_witness :
    (run 64 (ezmem_init State.initial EZMEM_DEBUG_TRACK) (demoCalls.map mallocOp)).records
      = demoCalls ∧
    (ez_malloc_dbg (run 64 (ezmem_init State.initial EZMEM_DEBUG_TRACK) (demoCalls.map mallocOp))
        demoLast.ptr demoLast.size demoLast.file demoLast.line demoLast.func).1 = demoLast.ptr ∧
    (ez_malloc_dbg (run 64 (ezmem_init State.initial EZMEM_DEBUG_TRACK) (demoCalls.map mallocOp))
        demoLast.ptr demoLast.size demoLast.file demoLast.line demoLast.func).1 ≠ 0 ∧
    (run 64 (ezmem_init State.initial EZMEM_DEBUG_TRACK)
        ((demoCalls ++ [demoLast]).map mallocOp)).records = demoCalls ∧
    (run 64 (ezmem_init State.initial EZMEM_DEBUG_TRACK)
        ((demoCalls ++ [demoLast]).map mallocOp)).ezmem_allocCount
      = EZMEM_MAX_ALLOCATIONS :=
  malloc_beyond_capacity 64 (ezmem_init State.initial EZMEM_DEBUG_TRACK) demoCalls
    demoLast rfl rfl (by simp [demoCalls, EZMEM_MAX_ALLOCATIONS])
    (by simp [demoCalls]) (by decide)

/-! ## Resize to a new pointer (C6) -/

/-- C6: under TRACK or STRICT, for a registry within capacity (possibly full) with unique
pointers that has a record for `A` and none for `B`, `B` non-null (so `B` differs from `A`), a
resize of `A` to size `n` to which `realloc` returns `B` returns `B` and turns the registry
`l1 ++ rA :: l2` (`rA` the record of `A`) into `l1 ++ l2 ++ [(B, n, call site)]`: no record
for `A` is left, exactly one record has pointer `B` and its size is `n`, the other records keep
their relative order, and the count is unchanged. -/
theorem realloc_moves_record (s : State) (A B n : Nat) (file : String) (line : Int)
    (func : String)
    (hmode : s.ezmem_debugMode = EZMEM_DEBUG_TRACK ∨ s.ezmem_debugMode = EZMEM_DEBUG_STRICT)
    (hcap : s.ezmem_allocCount ≤ EZMEM_MAX_ALLOCATIONS) (huniq : s.ptrs.Nodup)
    (hA : ∃ r ∈ s.records, r.ptr = A) (hB : ∀ r ∈ s.records, r.ptr ≠ B) (hB0 : B ≠ 0) :
    (ez_realloc_dbg s B A n file line func).1 = B ∧
    ∃ l1 rA l2, s.records = l1 ++ rA :: l2 ∧ rA.ptr = A ∧
      (ez_realloc_dbg s B A n file line func).2.records
        = l1 ++ l2 ++ [⟨B, n, file, line, func⟩] ∧
      (∀ r ∈ (ez_realloc_dbg s B A n file line func).2.records, r.ptr ≠ A) ∧
      (ez_realloc_dbg s B A n file line func).2.records.filter (fun r => decide (r.ptr = B))
        = [⟨B, n, file, line, func⟩] ∧
      (ez_realloc_dbg s B A n file line func).2.records.length = s.records.length := by
  have htr : s.tracked A := tracked_iff_records.2 hA
  obtain ⟨l1, rA, l2, hsplit, hpA, hmin, _, hrec, hcount, _, _⟩ := records_remove_tracked htr
  have hgt : s.ezmem_debugMode > EZMEM_DEBUG_LOG ∧ B ≠ 0 := by
    refine ⟨?_, hB0⟩
    rcases hmode with h | h <;> rw [h] <;> decide
  have hroom : (ezmem_remove_alloc s A).2.ezmem_allocCount < EZMEM_MAX_ALLOCATIONS := by omega
  have hnew : (ez_realloc_dbg s B A n file line func).2.records
      = l1 ++ l2 ++ [⟨B, n, file, line, func⟩] := by
    rw [realloc_records, if_pos hgt, if_pos hroom, hrec]
  have hAB : B ≠ A := by
    intro e
    obtain ⟨r, hr, hrA⟩ := hA
    exact hB r hr (hrA.trans e.symm)
  have hnd : (l1.map (fun r => r.ptr) ++ A :: l2.map (fun r => r.ptr)).Nodup := by
    have := huniq
    unfold State.ptrs at this
    rw [hsplit, List.map_append, List.map_cons, hpA] at this
    exact this
  have hA2 : A ∉ l2.map (fun r => r.ptr) := by
    have h2 := (List.nodup_append.1 hnd).2.1
    exact (List.nodup_cons.1 h2).1
  have hrest : ∀ r ∈ l1 ++ l2, r.ptr ≠ A ∧ r.ptr ≠ B := by
    intro r hr
    rcases List.mem_append.1 hr with h | h
    · exact ⟨hmin r h, hB r (by rw [hsplit]; exact List.mem_append_left _ h)⟩
    · refine ⟨fun e => hA2 (List.mem_map.2 ⟨r, h, e⟩), hB r ?_⟩
      rw [hsplit]
      exact List.mem_append_right _ (List.mem_cons_of_mem _ h)
  refine ⟨?_, l1, rA, l2, hsplit, hpA, hnew, ?_, ?_, ?_⟩
  · unfold ez_realloc_dbg
    simp only []
    split_ifs <;> rfl
  · rw [hnew]
    intro r hr
    rcases List.mem_append.1 hr with h | h
    · exact (hrest r h).1
    · rw [List.mem_singleton.1 h]
      exact fun e => hAB e
  · rw [hnew, List.filter_append]
    have hnone : (l1 ++ l2).filter (fun r => decide (r.ptr = B)) = [] := by
      rw [List.filter_eq_nil_iff]
      intro r hr
      simpa using (hrest r hr).2
    rw [hnone]
    simp
  · rw [hnew, hsplit]
    simp only [List.length_append, List.length_cons, List.length_nil]
    omega

theorem demoFull_ptrs : demoFull.ptrs = (List.range 1024).map (fun i => i + 1) := by
  simp [State.ptrs, State.records, demoFull, List.map_map, Function.comp_def]

/-- C6 at a full registry: the 1024 records have pointers 1..1024, and pointer 5 is resized to
size 20 at the new pointer 5000. -/
theorem realloc_moves_record_witness :
    (ez_realloc_dbg demoFull 5000 5 20 "b.c" 7 "g").1 = 5000 ∧
    ∃ l1 rA l2, demoFull.records = l1 ++ rA :: l2 ∧ rA.ptr = 5 ∧
      (ez_realloc_dbg demoFull 5000 5 20 "b.c" 7 "g").2.records
        = l1 ++ l2 ++ [⟨5000, 20, "b.c", 7, "g"⟩] ∧
      (∀ r ∈ (ez_realloc_dbg demoFull 5000 5 20 "b.c" 7 "g").2.records, r.ptr ≠ 5) ∧
      (ez_realloc_dbg demoFull 5000 5 20 "b.c" 7 "g").2.records.filter
          (fun r => decide (r.ptr = 5000))
        = [⟨5000, 20, "b.c", 7, "g"⟩] ∧
      (ez_realloc_dbg demoFull 5000 5 20 "b.c" 7 "g").2.records.length
        = demoFull.records.length :=
  realloc_moves_record demoFull 5 5000 20 "b.c" 7 "g" (Or.inl rfl) (Nat.le_refl 1024)
    (by
      rw [demoFull_ptrs]
      exact List.Nodup.map (fun a b h => Nat.succ.inj h) (List.nodup_range 1024))
    ⟨demoFull.ezmem_allocBuffer 4, mem_records.2 ⟨4, by decide, rfl⟩, rfl⟩
    (by
      intro r hr
      obtain ⟨i, hi, rfl⟩ := mem_records.1 hr
      have hi : i < 1024 := hi
      show i + 1 ≠ 5000
      omega)
    (by decide)

/-! ## Uniqueness of the registry's pointers (C7) -/

theorem tracked_iff_mem_ptrs {s : State} {p : Nat} : s.tracked p ↔ p ∈ s.ptrs := by
  rw [tracked_iff_records]
  unfold State.ptrs
  simp [List.mem_map]

theorem nodup_concat_of_not_mem {l : List Nat} {a : Nat} (h : l.Nodup) (ha : a ∉ l) :
    (l ++ [a]).Nodup := by
  rw [List.nodup_append]
  refine ⟨h, List.nodup_singleton a, ?_⟩
  intro x hx hx2
  rw [List.mem_singleton.1 hx2] at hx
  exact ha hx

theorem step_ptrs_nodup (w : Nat) (s : State) (op : Op) (hfresh : op.fresh s = true)
    (h : s.ptrs.Nodup) : (step w s op).ptrs.Nodup := by
  cases op with
  | init dbg => exact h
  | malloc ret size file line func =>
    have hf : ret = 0 ∨ ¬ s.tracked ret := by simpa [Op.fresh] using hfresh
    show (ez_malloc_dbg s ret size file line func).2.ptrs.Nodup
    unfold State.ptrs
    rw [malloc_records]
    split_ifs with hc
    · rw [List.map_append]
      apply nodup_concat_of_not_mem h
      rcases hf with h0 | hn
      · exact absurd h0 hc.2.1
      · exact fun hm => hn (tracked_iff_mem_ptrs.2 hm)
    · exact h
  | calloc ret nmemb size file line func =>
    have hf : ret = 0 ∨ ¬ s.tracked ret := by simpa [Op.fresh] using hfresh
    show (ez_calloc_dbg w s ret nmemb size file line func).2.ptrs.Nodup
    unfold State.ptrs
    rw [calloc_records]
    split_ifs with hc
    · rw [List.map_append]
      apply nodup_concat_of_not_mem h
      rcases hf with h0 | hn
      · exact absurd h0 hc.2.1
      · exact fun hm => hn (tracked_iff_mem_ptrs.2 hm)
    · exact h
  | realloc ret ptr size file line func =>
    have hf : ret = 0 ∨ ret = ptr ∨ ¬ s.tracked ret := by simpa [Op.fresh] using hfresh
    show (ez_realloc_dbg s ret ptr size file line func).2.ptrs.Nodup
    have herase : (ezmem_remove_alloc s ptr).2.ptrs.Nodup := by
      rw [ptrs_remove]; exact h.erase ptr
    unfold State.ptrs
    rw [realloc_records]
    split_ifs with hc hroom
    · rw [List.map_append]
      apply nodup_concat_of_not_mem herase
      show ret ∉ (ezmem_remove_alloc s ptr).2.ptrs
      rw [ptrs_remove]
      rcases hf with h0 | he | hn
      · exact absurd h0 hc.2
      · rw [he]; exact fun hm => (List.Nodup.mem_erase_iff h).1 hm |>.1 rfl
      · exact fun hm => hn (tracked_iff_mem_ptrs.2 (List.mem_of_mem_erase hm))
    · exact herase
    · exact h
  | free ptr file line func =>
    show (ez_free_dbg s ptr file line func).ptrs.Nodup
    unfold State.ptrs
    rw [free_records]
    split_ifs
    · have := ptrs_remove s ptr
      unfold State.ptrs at this
      rw [this]; exact h.erase ptr
    · exact h
  | remove ptr =>
    show (ezmem_remove_alloc s ptr).2.ptrs.Nodup
    rw [ptrs_remove]; exact h.erase ptr

theorem run_ptrs_nodup (w : Nat) (ops : List Op) :
    ∀ s : State, freshRun w s ops = true → s.ptrs.Nodup → (run w s ops).ptrs.Nodup := by
  induction ops with
  | nil => intro s _ h; exact h
  | cons op ops ih =>
    intro s hf h
    have hf2 : op.fresh s = true ∧ freshRun w (step w s op) ops = true := by
      simpa [freshRun] using hf
    exact ih (step w s op) hf2.2 (step_ptrs_nodup w s op hf2.1 h)

/-- C7, as stated, fails: two runs from the initial state that end with two records for the
pointer 1000. In the first (mode TRACK) a resize to size 0 reports `NULL`, the record stays, and
the next `malloc` returns the same address; in the second (mode value 4) `ez_free_dbg` takes the
default branch, which calls `free` and keeps the record, and the next `malloc` returns the same
address. -/
theorem ptrs_unique_counterexample :
    (run 64 State.initial dupOpsTrack).records
        = [⟨1000, 16, "a.c", 1, "f"⟩, ⟨1000, 16, "a.c", 3, "f"⟩] ∧
    ¬ (run 64 State.initial dupOpsTrack).ptrs.Nodup ∧
    (run 64 State.initial dupOpsMode4).records
        = [⟨1000, 16, "a.c", 1, "f"⟩, ⟨1000, 16, "a.c", 3, "f"⟩] ∧
    freeCalls (run 64 State.initial dupOpsMode4).trace = [1000] ∧
    ¬ (run 64 State.initial dupOpsMode4).ptrs.Nodup := by
  decide

/-- C7, amended: in every state reached from the initial state (empty registry) by any sequence
of calls (any mode values), provided every non-null pointer the allocator returns has no record
in the registry at the moment of the call (a resize may also return the pointer it was given),
no two records have the same pointer. -/
theorem ptrs_unique_of_fresh (w : Nat) (ops : List Op)
    (hfresh : freshRun w State.initial ops = true) :
    (run w State.initial ops).ptrs.Nodup :=
  run_ptrs_nodup w ops State.initial hfresh (by simp [State.ptrs, State.records, State.initial])

/-- C7 (amended) at a run that allocates, resizes in place, resizes away, allocates the old
address again and releases. -/
theorem ptrs_unique_of_fresh_witness :
    freshRun 64 State.initial freshOps = true ∧ (run 64 State.initial freshOps).ptrs.Nodup :=
  ⟨by decide, ptrs_unique_of_fresh 64 freshOps (by decide)⟩

/-! ## Paired allocations and releases leave nothing behind (C1) -/

theorem run_ptrs_le_outstanding (w : Nat) (ops : List Op) :
    ∀ (s : State) (live : List Nat),
      (s.ezmem_debugMode = EZMEM_DEBUG_TRACK ∨ s.ezmem_debugMode = EZMEM_DEBUG_STRICT) →
      (∀ op ∈ ops, op.isAllocOrFree = true) →
      (∀ q, s.ptrs.count q ≤ live.count q) →
      ∀ q, (run w s ops).ptrs.count q ≤ (outstanding live ops).count q := by
  induction ops with
  | nil => intro s live _ _ h; exact h
  | cons op ops ih =>
    intro s live hmode hops h
    have hrest : ∀ op ∈ ops, op.isAllocOrFree = true :=
      fun x hx => hops x (List.mem_cons_of_mem _ hx)
    have hop : op.isAllocOrFree = true := hops op (List.mem_cons_self _ _)
    cases op with
    | init dbg => simp [Op.isAllocOrFree] at hop
    | realloc ret ptr size file line func => simp [Op.isAllocOrFree] at hop
    | remove ptr => simp [Op.isAllocOrFree] at hop
    | malloc ret size file line func =>
      apply ih (ez_malloc_dbg s ret size file line func).2
        (if ret = 0 then live else ret :: live) (by rw [malloc_mode]; exact hmode) hrest
      intro q
      have hq := h q
      unfold State.ptrs at hq ⊢
      rw [malloc_records]
      split_ifs with hc h0 h0
      · exact absurd h0 hc.2.1
      · simp only [List.map_append, List.count_append, List.map_cons, List.map_nil,
          List.count_cons, List.count_nil]
        omega
      · exact hq
      · rw [List.count_cons]; omega
    | calloc ret nmemb size file line func =>
      apply ih (ez_calloc_dbg w s ret nmemb size file line func).2
        (if ret = 0 then live else ret :: live) (by rw [calloc_mode]; exact hmode) hrest
      intro q
      have hq := h q
      unfold State.ptrs at hq ⊢
      rw [calloc_records]
      split_ifs with hc h0 h0
      · exact absurd h0 hc.2.1
      · simp only [List.map_append, List.count_append, List.map_cons, List.map_nil,
          List.count_cons, List.count_nil]
        omega
      · exact hq
      · rw [List.count_cons]; omega
    | free ptr file line func =>
      apply ih (ez_free_dbg s ptr file line func) (live.erase ptr)
        (by rw [free_mode]; exact hmode) hrest
      intro q
      have hq := h q
      have hp := ptrs_remove s ptr
      unfold State.ptrs at hq hp ⊢
      rw [free_records, if_pos hmode, hp, List.count_erase, List.count_erase]
      omega

theorem exit_of_empty (s : State) (h : s.ezmem_allocCount = 0) : ezmem_exit s = s := by
  unfold ezmem_exit
  rw [if_neg]
  omega

/-- C1: under TRACK or STRICT, starting from an empty registry, after any sequence of
`ez_malloc_dbg` / `ez_calloc_dbg` / `ez_free_dbg` calls in which every successfully allocated
pointer has been released after its allocation (`outstanding [] ops = []`: no pointer is left
allocated at the end), the registry is empty and `ezmem_exit` writes nothing: it returns the
state unchanged, trace included. The hypothesis is the one of the claim (fresh pointers, each
released exactly once after its allocation) and also admits releases of pointers that are not
allocated and allocators that repeat a pointer. -/
theorem paired_calls_leave_no_leak (w : Nat) (s0 : State) (ops : List Op)
    (hmode : s0.ezmem_debugMode = EZMEM_DEBUG_TRACK ∨ s0.ezmem_debugMode = EZMEM_DEBUG_STRICT)
    (hempty : s0.ezmem_allocCount = 0) (hops : ∀ op ∈ ops, op.isAllocOrFree = true)
    (hpaired : outstanding [] ops = []) :
    (run w s0 ops).records = [] ∧ (run w s0 ops).ezmem_allocCount = 0 ∧
    ezmem_exit (run w s0 ops) = run w s0 ops ∧
    (ezmem_exit (run w s0 ops)).trace = (run w s0 ops).trace := by
  have h0 : ∀ q, s0.ptrs.count q ≤ ([] : List Nat).count q := by
    intro q
    simp [State.ptrs, State.records, hempty]
  have hle := run_ptrs_le_outstanding w ops s0 [] hmode hops h0
  rw [hpaired] at hle
  have hptrs : (run w s0 ops).ptrs = [] := by
    rw [List.eq_nil_iff_forall_not_mem]
    intro q hq
    have := List.count_pos_iff.2 hq
    have := hle q
    simp only [List.count_nil] at this
    omega
  have hrec : (run w s0 ops).records = [] := by
    unfold State.ptrs at hptrs
    exact List.map_eq_nil_iff.1 hptrs
  have hcount : (run w s0 ops).ezmem_allocCount = 0 := by
    rw [← length_records, hrec]; rfl
  have hexit := exit_of_empty _ hcount
  exact ⟨hrec, hcount, hexit, by rw [hexit]⟩

/-- C1 at a STRICT run with two allocations, a reuse of a released address, and a failed
allocation. -/
theorem paired_calls_leave_no_leak_witness :
    (run 64 (ezmem_init State.initial EZMEM_DEBUG_STRICT) pairedOps).records = [] ∧
    (run 64 (ezmem_init State.initial EZMEM_DEBUG_STRICT) pairedOps).ezmem_allocCount = 0 ∧
    ezmem_exit (run 64 (ezmem_init State.initial EZMEM_DEBUG_STRICT) pairedOps)
      = run 64 (ezmem_init State.initial EZMEM_DEBUG_STRICT) pairedOps ∧
    (ezmem_exit (run 64 (ezmem_init State.initial EZMEM_DEBUG_STRICT) pairedOps)).trace
      = (run 64 (ezmem_init State.initial EZMEM_DEBUG_STRICT) pairedOps).trace :=
  paired_calls_leave_no_leak 64 (ezmem_init State.initial EZMEM_DEBUG_STRICT) pairedOps
    (Or.inr rfl) rfl (by decide) (by decide)

/-! ## Mode OFF is a pass-through (C11) -/

/-- C11: at mode OFF each of the four operations appends to the trace exactly one event, the
call of the underlying operation on the caller's arguments (so no line is written on either
stream), and leaves buffer, count and mode as they were; the three allocating operations return
the allocator's value; and `ezmem_exit` returns the state unchanged (it writes nothing) whatever
the registry holds. -/
theorem off_is_passthrough (w : Nat) (s : State) (ret nmemb ptr size : Nat) (file : String)
    (line : Int) (func : String) (hmode : s.ezmem_debugMode = EZMEM_DEBUG_OFF) :
    ez_malloc_dbg s ret size file line func = (ret, s.emit (Event.call_malloc size ret)) ∧
    ez_calloc_dbg w s ret nmemb size file line func
      = (ret, s.emit (Event.call_calloc nmemb size ret)) ∧
    ez_realloc_dbg s ret ptr size file line func
      = (ret, s.emit (Event.call_realloc ptr size ret)) ∧
    ez_free_dbg s ptr file line func = s.emit (Event.call_free ptr) ∧
    ezmem_exit s = s := by
  have h0 : s.ezmem_debugMode = 0 := hmode
  refine ⟨?_, ?_, ?_, ?_, ?_⟩
  · unfold ez_malloc_dbg
    simp [h0]
  · unfold ez_calloc_dbg
    simp [h0]
  · unfold ez_realloc_dbg
    simp [h0]
  · unfold ez_free_dbg
    simp [hmode]
  · unfold ezmem_exit
    rw [if_neg]
    rw [h0]
    intro h
    exact absurd h.1 (by decide)

/-- C11 at a state of mode OFF whose buffer still holds a record. -/
theorem off_is_passthrough_witness :
    demoOff.records = [⟨100, 16, "a.c", 1, "f"⟩] ∧
    ez_malloc_dbg demoOff 300 8 "b.c" 7 "g" = (300, demoOff.emit (Event.call_malloc 8 300)) ∧
    ez_calloc_dbg 64 demoOff 300 2 8 "b.c" 7 "g"
      = (300, demoOff.emit (Event.call_calloc 2 8 300)) ∧
    ez_realloc_dbg demoOff 300 100 8 "b.c" 7 "g"
      = (300, demoOff.emit (Event.call_realloc 100 8 300)) ∧
    ez_free_dbg demoOff 100 "b.c" 7 "g" = demoOff.emit (Event.call_free 100) ∧
    ezmem_exit demoOff = demoOff :=
  ⟨by decide, off_is_passthrough 64 demoOff 300 2 100 8 "b.c" 7 "g" rfl⟩

/-! ## When no record is created (C12) -/

/-- C12: for `ez_malloc_dbg`, `ez_calloc_dbg` and `ez_realloc_dbg`, if the underlying call
returns null or the mode is OFF or LOG, then buffer and count after the call are those before it
(a failed resize keeps the old pointer's record, no record is added); and at mode LOG
`ez_free_dbg` leaves buffer and count unchanged too. -/
theorem no_record_without_tracked_success (w : Nat) (s : State) (ret nmemb ptr size : Nat)
    (file : String) (line : Int) (func : String)
    (h : ret = 0 ∨ s.ezmem_debugMode = EZMEM_DEBUG_OFF ∨ s.ezmem_debugMode = EZMEM_DEBUG_LOG) :
    ((ez_malloc_dbg s ret size file line func).2.ezmem_allocBuffer = s.ezmem_allocBuffer ∧
      (ez_malloc_dbg s ret size file line func).2.ezmem_allocCount = s.ezmem_allocCount) ∧
    ((ez_calloc_dbg w s ret nmemb size file line func).2.ezmem_allocBuffer
        = s.ezmem_allocBuffer ∧
      (ez_calloc_dbg w s ret nmemb size file line func).2.ezmem_allocCount
        = s.ezmem_allocCount) ∧
    ((ez_realloc_dbg s ret ptr size file line func).2.ezmem_allocBuffer = s.ezmem_allocBuffer ∧
      (ez_realloc_dbg s ret ptr size file line func).2.ezmem_allocCount = s.ezmem_allocCount) ∧
    (s.ezmem_debugMode = EZMEM_DEBUG_LOG →
      (ez_free_dbg s ptr file line func).ezmem_allocBuffer = s.ezmem_allocBuffer ∧
      (ez_free_dbg s ptr file line func).ezmem_allocCount = s.ezmem_allocCount) := by
  have hno : ret = 0 ∨ ¬ s.ezmem_debugMode > EZMEM_DEBUG_LOG := by
    rcases h with h | h | h
    · exact Or.inl h
    · right; rw [h]; decide
    · right; rw [h]; decide
  refine ⟨?_, ?_, ?_, ?_⟩
  · unfold ez_malloc_dbg
    simp only []
    split_ifs with h1 h2 h3
    · exact ⟨rfl, rfl⟩
    · rcases hno with h0 | hm
      · exact absurd h0 h2
      · exact absurd h3.1 hm
    · exact ⟨rfl, rfl⟩
    · exact ⟨rfl, rfl⟩
  · unfold ez_calloc_dbg
    simp only []
    split_ifs with h1 h2 h3
    · exact ⟨rfl, rfl⟩
    · rcases hno with h0 | hm
      · exact absurd h0 h2
      · exact absurd h3.1 hm
    · exact ⟨rfl, rfl⟩
    · exact ⟨rfl, rfl⟩
  · unfold ez_realloc_dbg
    simp only []
    split_ifs with h1 h2 h3 h4
    · exact ⟨rfl, rfl⟩
    · rcases hno with h0 | hm
      · exact absurd h0 h2
      · exact absurd h3 hm
    · rcases hno with h0 | hm
      · exact absurd h0 h2
      · exact absurd h3 hm
    · exact ⟨rfl, rfl⟩
    · exact ⟨rfl, rfl⟩
  · intro hlog
    unfold ez_free_dbg
    simp [hlog, EZMEM_DEBUG_LOG, EZMEM_DEBUG_OFF]

/-- C12 at a LOG state whose buffer still holds the record of pointer 100: a failed resize of
that pointer. -/
theorem no_record_without_tracked_success_witness :
    ((ez_malloc_dbg demoLog 0 8 "b.c" 7 "g").2.ezmem_allocBuffer = demoLog.ezmem_allocBuffer ∧
      (ez_malloc_dbg demoLog 0 8 "b.c" 7 "g").2.ezmem_allocCount = demoLog.ezmem_allocCount) ∧
    ((ez_calloc_dbg 64 demoLog 0 2 8 "b.c" 7 "g").2.ezmem_allocBuffer
        = demoLog.ezmem_allocBuffer ∧
      (ez_calloc_dbg 64 demoLog 0 2 8 "b.c" 7 "g").2.ezmem_allocCount
        = demoLog.ezmem_allocCount) ∧
    ((ez_realloc_dbg demoLog 0 100 8 "b.c" 7 "g").2.ezmem_allocBuffer
        = demoLog.ezmem_allocBuffer ∧
      (ez_realloc_dbg demoLog 0 100 8 "b.c" 7 "g").2.ezmem_allocCount
        = demoLog.ezmem_allocCount) ∧
    (demoLog.ezmem_debugMode = EZMEM_DEBUG_LOG →
      (ez_free_dbg demoLog 100 "b.c" 7 "g").ezmem_allocBuffer = demoLog.ezmem_allocBuffer ∧
      (ez_free_dbg demoLog 100 "b.c" 7 "g").ezmem_allocCount = demoLog.ezmem_allocCount) :=
  no_record_without_tracked_success 64 demoLog 0 2 100 8 "b.c" 7 "g" (Or.inl rfl)

/-! ## A tracked allocation appends one record (C13) -/

theorem push_buffer_below (s : State) (r : s_ezmemRecord) (i : Nat)
    (hi : i < s.ezmem_allocCount) : (s.push r).ezmem_allocBuffer i = s.ezmem_allocBuffer i := by
  unfold State.push bufWrite
  simp only []
  rw [if_neg (by omega)]

/-- C13: under TRACK or STRICT, with fewer than `EZMEM_MAX_ALLOCATIONS` records, a successful
`ez_malloc_dbg(size)` or `ez_calloc_dbg(nmemb, size)` appends exactly one record at the end of
the registry and leaves the earlier entries unchanged; the record holds the returned pointer, the
call-site file, line and function passed in, and as size `size` for the former and
`nmemb * size` modulo `2 ^ w` for the latter. From an empty registry the result is the
one-record registry. -/
theorem tracked_alloc_appends (w : Nat) (s : State) (ret nmemb size : Nat) (file : String)
    (line : Int) (func : String)
    (hmode : s.ezmem_debugMode = EZMEM_DEBUG_TRACK ∨ s.ezmem_debugMode = EZMEM_DEBUG_STRICT)
    (hroom : s.ezmem_allocCount < EZMEM_MAX_ALLOCATIONS) (hret : ret ≠ 0) :
    ((ez_malloc_dbg s ret size file line func).2.records
        = s.records ++ [⟨ret, size, file, line, func⟩] ∧
      (ez_malloc_dbg s ret size file line func).2.ezmem_allocCount = s.ezmem_allocCount + 1 ∧
      (∀ i, i < s.ezmem_allocCount →
        (ez_malloc_dbg s ret size file line func).2.ezmem_allocBuffer i
          = s.ezmem_allocBuffer i) ∧
      (s.ezmem_allocCount = 0 →
        (ez_malloc_dbg s ret size file line func).2.records = [⟨ret, size, file, line, func⟩])) ∧
    ((ez_calloc_dbg w s ret nmemb size file line func).2.records
        = s.records ++ [⟨ret, (nmemb * size) % 2 ^ w, file, line, func⟩] ∧
      (ez_calloc_dbg w s ret nmemb size file line func).2.ezmem_allocCount
        = s.ezmem_allocCount + 1 ∧
      (∀ i, i < s.ezmem_allocCount →
        (ez_calloc_dbg w s ret nmemb size file line func).2.ezmem_allocBuffer i
          = s.ezmem_allocBuffer i) ∧
      (s.ezmem_allocCount = 0 →
        (ez_calloc_dbg w s ret nmemb size file line func).2.records
          = [⟨ret, (nmemb * size) % 2 ^ w, file, line, func⟩])) := by
  have hgt : s.ezmem_debugMode > EZMEM_DEBUG_LOG := by
    rcases hmode with h | h <;> rw [h] <;> decide
  have hne : s.ezmem_debugMode ≠ 0 := by
    rcases hmode with h | h <;> rw [h] <;> decide
  have hm : ez_malloc_dbg s ret size file line func
      = (ret, (((s.emit (Event.call_malloc size ret)).emit
          (Event.printf (Msg.malloc_ok ret size file line func))).push
            ⟨ret, size, file, line, func⟩)) := by
    unfold ez_malloc_dbg
    simp [hne, hret, hgt, hroom]
  have hc : ez_calloc_dbg w s ret nmemb size file line func
      = (ret, (((s.emit (Event.call_calloc nmemb size ret)).emit
          (Event.printf (Msg.calloc_ok ret nmemb size file line func))).push
            ⟨ret, (nmemb * size) % 2 ^ w, file, line, func⟩)) := by
    unfold ez_calloc_dbg
    simp [hne, hret, hgt, hroom]
  have hempty : s.ezmem_allocCount = 0 → s.records = [] := by
    intro h0
    simp [State.records, h0]
  refine ⟨⟨?_, ?_, ?_, ?_⟩, ⟨?_, ?_, ?_, ?_⟩⟩
  · rw [hm, records_push]; rfl
  · rw [hm]; rfl
  · intro i hi
    rw [hm]
    exact push_buffer_below _ _ i hi
  · intro h0
    rw [hm, records_push]
    show s.records ++ _ = _
    rw [hempty h0]; rfl
  · rw [hc, records_push]; rfl
  · rw [hc]; rfl
  · intro i hi
    rw [hc]
    exact push_buffer_below _ _ i hi
  · intro h0
    rw [hc, records_push]
    show s.records ++ _ = _
    rw [hempty h0]; rfl

/-- C13 from the empty registry under TRACK: `malloc(16)` returning 100, and, with an 8-bit
`size_t`, `calloc(20, 20)` whose product 400 is stored as 144. -/
theorem tracked_alloc_appends_witness :
    (ez_malloc_dbg (ezmem_init State.initial EZMEM_DEBUG_TRACK) 100 16 "a.c" 1
        "f").2.records = [⟨100, 16, "a.c", 1, "f"⟩] ∧
    (ez_calloc_dbg 8 (ezmem_init State.initial EZMEM_DEBUG_TRACK) 100 20 20 "a.c" 1
        "f").2.records = [⟨100, 144, "a.c", 1, "f"⟩] :=
  ⟨(tracked_alloc_appends 8 (ezmem_init State.initial EZMEM_DEBUG_TRACK) 100 20 16 "a.c" 1 "f"
      (Or.inl rfl) (by decide) (by decide)).1.2.2.2 rfl,
    (tracked_alloc_appends 8 (ezmem_init State.initial EZMEM_DEBUG_TRACK) 100 20 20 "a.c" 1 "f"
      (Or.inl rfl) (by decide) (by decide)).2.2.2.2 rfl⟩

/-! ## The release state machine (C14) -/

/-- C14: at each of the four levels `ez_free_dbg(p)` calls the underlying `free` exactly once,
on `p`, except at STRICT with `p` absent from the registry, where it does not call it; and under
TRACK or STRICT with `p` present, it removes the first record of `p` (the registry
`l1 ++ r :: l2` becomes `l1 ++ l2`), then writes the "freed" line on standard output, then
calls `free(p)`. -/
theorem free_state_machine (s : State) (p : Nat) (file : String) (line : Int) (func : String)
    (hlevel : s.ezmem_debugMode = EZMEM_DEBUG_OFF ∨ s.ezmem_debugMode = EZMEM_DEBUG_LOG ∨
      s.ezmem_debugMode = EZMEM_DEBUG_TRACK ∨ s.ezmem_debugMode = EZMEM_DEBUG_STRICT) :
    freeCalls (ez_free_dbg s p file line func).trace
      = freeCalls s.trace
          ++ (if s.ezmem_debugMode = EZMEM_DEBUG_STRICT ∧ ¬ (∃ r ∈ s.records, r.ptr = p)
              then [] else [p]) ∧
    ((s.ezmem_debugMode = EZMEM_DEBUG_TRACK ∨ s.ezmem_debugMode = EZMEM_DEBUG_STRICT) →
      (∃ r ∈ s.records, r.ptr = p) →
      (ez_free_dbg s p file line func).trace
        = s.trace ++ [Event.printf (Msg.freed p file line func), Event.call_free p] ∧
      (Msg.freed p file line func).level = Level.info ∧
      ∃ l1 r l2, s.records = l1 ++ r :: l2 ∧ r.ptr = p ∧ (∀ x ∈ l1, x.ptr ≠ p) ∧
        (ez_free_dbg s p file line func).records = l1 ++ l2) := by
  have htracked : ∀ hp : (∃ r ∈ s.records, r.ptr = p),
      (s.ezmem_debugMode = EZMEM_DEBUG_TRACK ∨ s.ezmem_debugMode = EZMEM_DEBUG_STRICT) →
      ez_free_dbg s p file line func
        = (((ezmem_remove_alloc s p).2.emit (Event.printf (Msg.freed p file line func))).emit
            (Event.call_free p)) := by
    intro hp hm
    obtain ⟨_, _, _, _, _, _, hret, _⟩ := records_remove_tracked (tracked_iff_records.2 hp)
    unfold ez_free_dbg
    rcases hm with h | h <;>
      simp [h, hret, EZMEM_DEBUG_OFF, EZMEM_DEBUG_LOG, EZMEM_DEBUG_TRACK, EZMEM_DEBUG_STRICT]
  have huntracked : ¬ (∃ r ∈ s.records, r.ptr = p) → ezmem_remove_alloc s p = (0, s) :=
    fun hp => remove_alloc_untracked (fun ht => hp (tracked_iff_records.1 ht))
  constructor
  · by_cases hp : ∃ r ∈ s.records, r.ptr = p
    · rw [if_neg (fun h => h.2 hp)]
      rcases hlevel with h | h | h | h
      · unfold ez_free_dbg
        simp [h, EZMEM_DEBUG_OFF, freeCalls_append, freeCalls]
      · unfold ez_free_dbg
        simp [h, EZMEM_DEBUG_OFF, EZMEM_DEBUG_LOG, freeCalls_append, freeCalls]
      · rw [htracked hp (Or.inl h)]
        simp [freeCalls_append, freeCalls, remove_alloc_trace]
      · rw [htracked hp (Or.inr h)]
        simp [freeCalls_append, freeCalls, remove_alloc_trace]
    · rcases hlevel with h | h | h | h
      · rw [if_neg (fun hc => by rw [h] at hc; exact absurd hc.1 (by decide))]
        unfold ez_free_dbg
        simp [h, EZMEM_DEBUG_OFF, freeCalls_append, freeCalls]
      · rw [if_neg (fun hc => by rw [h] at hc; exact absurd hc.1 (by decide))]
        unfold ez_free_dbg
        simp [h, EZMEM_DEBUG_OFF, EZMEM_DEBUG_LOG, freeCalls_append, freeCalls]
      · rw [if_neg (fun hc => by rw [h] at hc; exact absurd hc.1 (by decide))]
        unfold ez_free_dbg
        simp [h, huntracked hp, EZMEM_DEBUG_OFF, EZMEM_DEBUG_LOG, EZMEM_DEBUG_TRACK,
          freeCalls_append, freeCalls]
      · rw [if_pos ⟨h, hp⟩]
        unfold ez_free_dbg
        simp [h, huntracked hp, EZMEM_DEBUG_OFF, EZMEM_DEBUG_LOG, EZMEM_DEBUG_TRACK,
          EZMEM_DEBUG_STRICT, freeCalls_append, freeCalls]
  · intro hm hp
    obtain ⟨l1, r, l2, hsplit, hrp, hmin, _, hrec, _, _, htrace⟩ :=
      records_remove_tracked (tracked_iff_records.2 hp)
    rw [htracked hp hm]
    refine ⟨?_, rfl, l1, r, l2, hsplit, hrp, hmin, ?_⟩
    · simp [htrace]
    · simp [hrec]

/-- C14 at a TRACK state that tracks the pointers 100 and 200: release of 100. -/
theorem free_state_machine_witness :
    freeCalls (ez_free_dbg demoTwo 100 "b.c" 7 "g").trace = freeCalls demoTwo.trace ++ [100] ∧
    (ez_free_dbg demoTwo 100 "b.c" 7 "g").records = [⟨200, 32, "a.c", 2, "f"⟩] ∧
    (ez_free_dbg demoTwo 100 "b.c" 7 "g").trace
      = demoTwo.trace ++ [Event.printf (Msg.freed 100 "b.c" 7 "g"), Event.call_free 100] :=
  ⟨(free_state_machine demoTwo 100 "b.c" 7 "g" (Or.inr (Or.inr (Or.inl rfl)))).1.trans
      (by decide),
    by decide,
    ((free_state_machine demoTwo 100 "b.c" 7 "g" (Or.inr (Or.inr (Or.inl rfl)))).2
      (Or.inl rfl) (by decide)).1⟩

/-! ## The shutdown report (C15) -/

theorem exit_loop_eq (buf : Nat → s_ezmemRecord) (count : Nat) :
    ∀ fuel i, count ≤ i + fuel →
      ezmem_exit_loop buf count fuel i
        = (List.range (count - i)).map (fun j => leakLine (buf (i + j))) := by
  intro fuel
  induction fuel with
  | zero =>
    intro i h
    have : count - i = 0 := by omega
    rw [this]; rfl
  | succ n ih =>
    intro i h
    unfold ezmem_exit_loop
    by_cases hi : i < count
    · rw [if_pos hi, ih (i + 1) (by omega)]
      have e : count - i = (count - (i + 1)) + 1 := by omega
      rw [e, List.range_succ_eq_map, List.map_cons, List.map_map]
      congr 1
      apply List.map_congr_left
      intro j _
      simp only [Function.comp_def, Nat.succ_eq_add_one]
      congr 2
      omega
    · rw [if_neg hi]
      have : count - i = 0 := by omega
      rw [this]; rfl

theorem exit_loop_records (s : State) :
    ezmem_exit_loop s.ezmem_allocBuffer s.ezmem_allocCount s.ezmem_allocCount 0
      = s.records.map leakLine := by
  rw [exit_loop_eq _ _ _ _ (by omega)]
  unfold State.records
  rw [List.map_map]
  apply List.map_congr_left
  intro j _
  simp [Function.comp_def]

/-- C15: `ezmem_exit` appends to the trace, when the mode is at least TRACK and the registry is
non-empty, one warning header on standard error stating the record count followed by one "Leak:"
line on standard error per record, the i-th line showing pointer, size, file, line and function
of the i-th record in registry order (so exactly as many lines as records); otherwise it appends
nothing. In every case buffer, count and mode are unchanged and `free` is not called. -/
theorem exit_report (s : State) :
    (ezmem_exit s).trace
      = s.trace ++
          (if s.ezmem_debugMode ≥ EZMEM_DEBUG_TRACK ∧ s.records ≠ []
           then Event.eprintf (Msg.leak_header s.records.length) :: s.records.map leakLine
           else []) ∧
    (s.records.map leakLine).length = s.records.length ∧
    (Msg.leak_header s.records.length).level = Level.warning ∧
    (ezmem_exit s).ezmem_allocBuffer = s.ezmem_allocBuffer ∧
    (ezmem_exit s).ezmem_allocCount = s.ezmem_allocCount ∧
    (ezmem_exit s).ezmem_debugMode = s.ezmem_debugMode ∧
    freeCalls (ezmem_exit s).trace = freeCalls s.trace := by
  have hne : s.records ≠ [] ↔ s.ezmem_allocCount > 0 := by
    rw [Ne, ← List.length_eq_zero, length_records]
    omega
  have hfree : ∀ l : List s_ezmemRecord, freeCalls (l.map leakLine) = [] := by
    intro l
    induction l with
    | nil => rfl
    | cons r l ih => simpa [leakLine, freeCalls] using ih
  unfold ezmem_exit
  by_cases hc : s.ezmem_debugMode ≥ EZMEM_DEBUG_TRACK ∧ s.ezmem_allocCount > 0
  · have hc2 : s.ezmem_debugMode ≥ EZMEM_DEBUG_TRACK ∧ s.records ≠ [] := ⟨hc.1, hne.2 hc.2⟩
    rw [if_pos hc, if_pos hc2]
    refine ⟨?_, by simp, rfl, rfl, rfl, rfl, ?_⟩
    · simp only [exit_loop_records, length_records]
    · simp only [exit_loop_records, freeCalls_append, freeCalls, hfree, List.append_nil]
  · have hc2 : ¬ (s.ezmem_debugMode ≥ EZMEM_DEBUG_TRACK ∧ s.records ≠ []) :=
      fun h => hc ⟨h.1, hne.1 h.2⟩
    rw [if_neg hc, if_neg hc2]
    exact ⟨by simp, by simp, rfl, rfl, rfl, rfl, rfl⟩

/-! ## One diagnostic line per allocating call (C16) -/

/-- C16: at every mode from LOG upwards, each call of `ez_malloc_dbg`, `ez_calloc_dbg` and
`ez_realloc_dbg` appends to the trace the underlying call followed by exactly one line: the
error-level "failed" line on standard error when the allocator returned null, and the
info-level line on standard output when it succeeded, whether or not a record is stored (also
when the registry is full). -/
theorem one_line_per_alloc (w : Nat) (s : State) (ret nmemb ptr size : Nat) (file : String)
    (line : Int) (func : String) (hmode : s.ezmem_debugMode ≥ EZMEM_DEBUG_LOG) :
    (ez_malloc_dbg s ret size file line func).2.trace
      = s.trace ++ [Event.call_malloc size ret,
          if ret = 0 then Event.eprintf (Msg.malloc_failed file line func size)
          else Event.printf (Msg.malloc_ok ret size file line func)] ∧
    (ez_calloc_dbg w s ret nmemb size file line func).2.trace
      = s.trace ++ [Event.call_calloc nmemb size ret,
          if ret = 0 then Event.eprintf (Msg.calloc_failed file line func nmemb size)
          else Event.printf (Msg.calloc_ok ret nmemb size file line func)] ∧
    (ez_realloc_dbg s ret ptr size file line func).2.trace
      = s.trace ++ [Event.call_realloc ptr size ret,
          if ret = 0 then Event.eprintf (Msg.realloc_failed file line func size)
          else Event.printf (Msg.realloc_ok ret ptr size file line func)] ∧
    (Msg.malloc_failed file line func size).level = Level.error ∧
    (Msg.calloc_failed file line func nmemb size).level = Level.error ∧
    (Msg.realloc_failed file line func size).level = Level.error ∧
    (Msg.malloc_ok ret size file line func).level = Level.info ∧
    (Msg.calloc_ok ret nmemb size file line func).level = Level.info ∧
    (Msg.realloc_ok ret ptr size file line func).level = Level.info := by
  have hne : s.ezmem_debugMode ≠ 0 := by
    have : (1 : Int) ≤ s.ezmem_debugMode := hmode
    omega
  refine ⟨?_, ?_, ?_, rfl, rfl, rfl, rfl, rfl, rfl⟩
  · unfold ez_malloc_dbg
    simp only [mode_emit, if_pos hne]
    split_ifs <;> simp
  · unfold ez_calloc_dbg
    simp only [mode_emit, if_pos hne]
    split_ifs <;> simp
  · unfold ez_realloc_dbg
    simp only [mode_emit, if_pos hne]
    split_ifs <;> simp [remove_alloc_trace]

/-- C16 at a full registry under TRACK: a successful `malloc` whose record is dropped still
writes its one line. -/
theorem one_line_per_alloc_witness :
    demoFull.ezmem_allocCount = EZMEM_MAX_ALLOCATIONS ∧
    (ez_malloc_dbg demoFull 5000 8 "b.c" 7 "g").2.trace
      = demoFull.trace ++ [Event.call_malloc 8 5000,
          if 5000 = 0 then Event.eprintf (Msg.malloc_failed "b.c" 7 "g" 8)
          else Event.printf (Msg.malloc_ok 5000 8 "b.c" 7 "g")] :=
  ⟨rfl, (one_line_per_alloc 64 demoFull 5000 1 5 8 "b.c" 7 "g" (by decide)).1⟩

/-! ## In-place resize (C17) -/

/-- C17: under TRACK or STRICT, for a registry within capacity with unique pointers that has a
record for `A`, a successful resize of `A` to size `n` to which `realloc` returns the same
pointer `A` turns the registry `l1 ++ rA :: l2` (`rA` the record of `A`) into
`l1 ++ l2 ++ [(A, n, call site of the resize)]`: the count is unchanged, exactly one record has
pointer `A`, it carries size `n` and the resize call's file, line and function, it is the last
record, and the other records keep their relative order. -/
theorem realloc_in_place_replaces (s : State) (A n : Nat) (file : String) (line : Int)
    (func : String)
    (hmode : s.ezmem_debugMode = EZMEM_DEBUG_TRACK ∨ s.ezmem_debugMode = EZMEM_DEBUG_STRICT)
    (hcap : s.ezmem_allocCount ≤ EZMEM_MAX_ALLOCATIONS) (huniq : s.ptrs.Nodup)
    (hA : ∃ r ∈ s.records, r.ptr = A) (hA0 : A ≠ 0) :
    (ez_realloc_dbg s A A n file line func).1 = A ∧
    ∃ l1 rA l2, s.records = l1 ++ rA :: l2 ∧ rA.ptr = A ∧
      (ez_realloc_dbg s A A n file line func).2.records
        = l1 ++ l2 ++ [⟨A, n, file, line, func⟩] ∧
      (ez_realloc_dbg s A A n file line func).2.records.filter (fun r => decide (r.ptr = A))
        = [⟨A, n, file, line, func⟩] ∧
      (ez_realloc_dbg s A A n file line func).2.ezmem_allocCount = s.ezmem_allocCount := by
  have htr : s.tracked A := tracked_iff_records.2 hA
  obtain ⟨l1, rA, l2, hsplit, hpA, hmin, _, hrec, hcount, _, _⟩ := records_remove_tracked htr
  have hgt : s.ezmem_debugMode > EZMEM_DEBUG_LOG ∧ A ≠ 0 := by
    refine ⟨?_, hA0⟩
    rcases hmode with h | h <;> rw [h] <;> decide
  have hroom : (ezmem_remove_alloc s A).2.ezmem_allocCount < EZMEM_MAX_ALLOCATIONS := by omega
  have hnew : (ez_realloc_dbg s A A n file line func).2.records
      = l1 ++ l2 ++ [⟨A, n, file, line, func⟩] := by
    rw [realloc_records, if_pos hgt, if_pos hroom, hrec]
  have hnd : (l1.map (fun r => r.ptr) ++ A :: l2.map (fun r => r.ptr)).Nodup := by
    have := huniq
    unfold State.ptrs at this
    rw [hsplit, List.map_append, List.map_cons, hpA] at this
    exact this
  have hA2 : A ∉ l2.map (fun r => r.ptr) := by
    have h2 := (List.nodup_append.1 hnd).2.1
    exact (List.nodup_cons.1 h2).1
  have hrest : ∀ r ∈ l1 ++ l2, r.ptr ≠ A := by
    intro r hr
    rcases List.mem_append.1 hr with h | h
    · exact hmin r h
    · exact fun e => hA2 (List.mem_map.2 ⟨r, h, e⟩)
  refine ⟨?_, l1, rA, l2, hsplit, hpA, hnew, ?_, ?_⟩
  · unfold ez_realloc_dbg
    simp only []
    split_ifs <;> rfl
  · rw [hnew, List.filter_append]
    have hnone : (l1 ++ l2).filter (fun r => decide (r.ptr = A)) = [] := by
      rw [List.filter_eq_nil_iff]
      intro r hr
      simpa using hrest r hr
    rw [hnone]
    simp
  · have hlen : (ez_realloc_dbg s A A n file line func).2.records.length
        = s.records.length := by
      rw [hnew, hsplit]
      simp only [List.length_append, List.length_cons, List.length_nil]
      omega
    rw [length_records, length_records] at hlen
    exact hlen

/-- C17 at a TRACK state with the records of 100 and 200: pointer 100 is resized in place to
size 64. -/
theorem realloc_in_place_replaces_witness :
    (ez_realloc_dbg demoTwo 100 100 64 "b.c" 7 "g").2.records
      = [⟨200, 32, "a.c", 2, "f"⟩, ⟨100, 64, "b.c", 7, "g"⟩] ∧
    (ez_realloc_dbg demoTwo 100 100 64 "b.c" 7 "g").1 = 100 :=
  ⟨by decide,
    (realloc_in_place_replaces demoTwo 100 64 "b.c" 7 "g" (Or.inl rfl) (by decide) (by decide)
      (by decide) (by decide)).1⟩

/-! ## No record for the null pointer (C18) -/

theorem step_no_null (w : Nat) (s : State) (op : Op) (h : 0 ∉ s.ptrs) :
    0 ∉ (step w s op).ptrs := by
  cases op with
  | init dbg => exact h
  | malloc ret size file line func =>
    show 0 ∉ (ez_malloc_dbg s ret size file line func).2.ptrs
    unfold State.ptrs
    rw [malloc_records]
    split_ifs with hc
    · rw [List.map_append, List.mem_append]
      rintro (hm | hm)
      · exact h hm
      · simp only [List.map_cons, List.map_nil, List.mem_singleton] at hm
        exact hc.2.1 hm.symm
    · exact h
  | calloc ret nmemb size file line func =>
    show 0 ∉ (ez_calloc_dbg w s ret nmemb size file line func).2.ptrs
    unfold State.ptrs
    rw [calloc_records]
    split_ifs with hc
    · rw [List.map_append, List.mem_append]
      rintro (hm | hm)
      · exact h hm
      · simp only [List.map_cons, List.map_nil, List.mem_singleton] at hm
        exact hc.2.1 hm.symm
    · exact h
  | realloc ret ptr size file line func =>
    show 0 ∉ (ez_realloc_dbg s ret ptr size file line func).2.ptrs
    have herase : 0 ∉ (ezmem_remove_alloc s ptr).2.ptrs := by
      rw [ptrs_remove]
      exact fun hm => h (List.mem_of_mem_erase hm)
    unfold State.ptrs
    rw [realloc_records]
    split_ifs with hc hroom
    · rw [List.map_append, List.mem_append]
      rintro (hm | hm)
      · exact herase hm
      · simp only [List.map_cons, List.map_nil, List.mem_singleton] at hm
        exact hc.2 hm.symm
    · exact herase
    · exact h
  | free ptr file line func =>
    show 0 ∉ (ez_free_dbg s ptr file line func).ptrs
    unfold State.ptrs
    rw [free_records]
    split_ifs
    · have := ptrs_remove s ptr
      unfold State.ptrs at this
      rw [this]
      exact fun hm => h (List.mem_of_mem_erase hm)
    · exact h
  | remove ptr =>
    show 0 ∉ (ezmem_remove_alloc s ptr).2.ptrs
    rw [ptrs_remove]
    exact fun hm => h (List.mem_of_mem_erase hm)

theorem run_no_null (w : Nat) (ops : List Op) :
    ∀ s : State, 0 ∉ s.ptrs → 0 ∉ (run w s ops).ptrs := by
  induction ops with
  | nil => intro s h; exact h
  | cons op ops ih =>
    intro s h
    exact ih (step w s op) (step_no_null w s op h)

/-- C18: in every state reached from the initial state (empty registry) by any sequence of
calls, with any mode values and any allocator results, no record has the null pointer; hence in
such a state `ez_free_dbg(NULL)` under TRACK writes the "untracked" warning and then calls
`free(NULL)`, and under STRICT writes the "untracked" error and does not call `free`; in both
cases buffer and count are unchanged. -/
theorem no_null_record (w : Nat) (ops : List Op) (file : String) (line : Int) (func : String) :
    (∀ r ∈ (run w State.initial ops).records, r.ptr ≠ 0) ∧
    ((run w State.initial ops).ezmem_debugMode = EZMEM_DEBUG_TRACK →
      ez_free_dbg (run w State.initial ops) 0 file line func
        = ((run w State.initial ops).emit
            (Event.eprintf (Msg.warn_untracked 0 file line func))).emit (Event.call_free 0)) ∧
    ((run w State.initial ops).ezmem_debugMode = EZMEM_DEBUG_STRICT →
      ez_free_dbg (run w State.initial ops) 0 file line func
        = (run w State.initial ops).emit (Event.eprintf (Msg.err_untracked 0 file line func))) := by
  have h0 : 0 ∉ (run w State.initial ops).ptrs :=
    run_no_null w ops State.initial (by simp [State.ptrs, State.records, State.initial])
  have hnt : ¬ (run w State.initial ops).tracked 0 := fun h => h0 (tracked_iff_mem_ptrs.1 h)
  refine ⟨?_, ?_, ?_⟩
  · intro r hr hp
    exact h0 (List.mem_map.2 ⟨r, hr, hp⟩)
  · intro hm
    unfold ez_free_dbg
    simp [hm, remove_alloc_untracked hnt, EZMEM_DEBUG_STRICT, EZMEM_DEBUG_OFF, EZMEM_DEBUG_LOG,
      EZMEM_DEBUG_TRACK]
  · intro hm
    unfold ez_free_dbg
    simp [hm, remove_alloc_untracked hnt, EZMEM_DEBUG_STRICT, EZMEM_DEBUG_OFF, EZMEM_DEBUG_LOG,
      EZMEM_DEBUG_TRACK]

/-! ## Mode values above STRICT (C19) -/

theorem run_mallocs_above_log (w : Nat) (calls : List s_ezmemRecord) :
    ∀ s : State, s.ezmem_debugMode > EZMEM_DEBUG_LOG → (∀ c ∈ calls, c.ptr ≠ 0) →
      s.ezmem_allocCount + calls.length ≤ EZMEM_MAX_ALLOCATIONS →
      (run w s (calls.map mallocOp)).records = s.records ++ calls ∧
      (run w s (calls.map mallocOp)).ezmem_debugMode = s.ezmem_debugMode ∧
      (run w s (calls.map mallocOp)).ezmem_allocCount = s.ezmem_allocCount + calls.length := by
  induction calls with
  | nil => intro s _ _ _; exact ⟨by simp [run], rfl, rfl⟩
  | cons c calls ih =>
    intro s hm hok hlen
    have hc : c.ptr ≠ 0 := hok c (List.mem_cons_self _ _)
    have hlen2 : s.ezmem_allocCount + (calls.length + 1) ≤ EZMEM_MAX_ALLOCATIONS := by
      simpa using hlen
    have hcond : s.ezmem_debugMode > EZMEM_DEBUG_LOG ∧ c.ptr ≠ 0
        ∧ s.ezmem_allocCount < EZMEM_MAX_ALLOCATIONS :=
      ⟨hm, hc, by omega⟩
    have hrec := malloc_records s c.ptr c.size c.file c.line c.func
    have hcnt := malloc_count s c.ptr c.size c.file c.line c.func
    rw [if_pos hcond] at hrec hcnt
    have hmode := malloc_mode s c.ptr c.size c.file c.line c.func
    obtain ⟨h1, h2, h3⟩ := ih (ez_malloc_dbg s c.ptr c.size c.file c.line c.func).2
      (by rw [hmode]; exact hm) (fun x hx => hok x (List.mem_cons_of_mem _ hx))
      (by rw [hcnt]; omega)
    have hrun : run w s ((c :: calls).map mallocOp)
        = run w (ez_malloc_dbg s c.ptr c.size c.file c.line c.func).2 (calls.map mallocOp) := rfl
    rw [hrun]
    refine ⟨?_, ?_, ?_⟩
    · rw [h1, hrec]; simp
    · rw [h2, hmode]
    · rw [h3, hcnt, List.length_cons]; omega

theorem run_cons (w : Nat) (s : State) (op : Op) (ops : List Op) :
    run w s (op :: ops) = run w (step w s op) ops := rfl

theorem malloc_fst (s : State) (ret size : Nat) (file : String) (line : Int) (func : String) :
    (ez_malloc_dbg s ret size file line func).1 = ret := by
  unfold ez_malloc_dbg
  simp only []
  split_ifs <;> rfl

theorem free_above_strict (t : State) (q : Nat) (f : String) (l : Int) (g : String)
    (ht : t.ezmem_debugMode > EZMEM_DEBUG_STRICT) :
    ez_free_dbg t q f l g = t.emit (Event.call_free q) := by
  have ht3 : (3 : Int) < t.ezmem_debugMode := ht
  unfold ez_free_dbg
  have e0 : t.ezmem_debugMode ≠ EZMEM_DEBUG_OFF := by
    show t.ezmem_debugMode ≠ (0 : Int); omega
  have e1 : t.ezmem_debugMode ≠ EZMEM_DEBUG_LOG := by
    show t.ezmem_debugMode ≠ (1 : Int); omega
  have e2 : t.ezmem_debugMode ≠ EZMEM_DEBUG_TRACK := by
    show t.ezmem_debugMode ≠ (2 : Int); omega
  have e3 : t.ezmem_debugMode ≠ EZMEM_DEBUG_STRICT := by
    show t.ezmem_debugMode ≠ (3 : Int); omega
  rw [if_neg e0, if_neg e1, if_neg e2, if_neg e3]

theorem exit_after_free_above_strict (t : State) (q : Nat) (f : String) (l : Int) (g : String)
    (ht : t.ezmem_debugMode > EZMEM_DEBUG_STRICT) (hc : t.ezmem_allocCount > 0) :
    (ez_free_dbg t q f l g).records = t.records ∧
    (ezmem_exit (ez_free_dbg t q f l g)).trace
      = (ez_free_dbg t q f l g).trace
        ++ Event.eprintf (Msg.leak_header t.ezmem_allocCount) :: t.records.map leakLine := by
  have ht3 : (3 : Int) < t.ezmem_debugMode := ht
  have hge : t.ezmem_debugMode ≥ EZMEM_DEBUG_TRACK := by
    show (2 : Int) ≤ t.ezmem_debugMode
    omega
  rw [free_above_strict t q f l g ht]
  refine ⟨rfl, ?_⟩
  unfold ezmem_exit
  rw [if_pos ⟨hge, hc⟩]
  simp only [exit_loop_records]
  simp only [count_emit, records_emit]

theorem demoCalls_ptr_le : ∀ c ∈ demoCalls, 1 ≤ c.ptr ∧ c.ptr ≤ 1024 := by
  intro c hc
  unfold demoCalls at hc
  obtain ⟨i, hi, rfl⟩ := List.mem_map.1 hc
  have := List.mem_range.1 hi
  exact ⟨by simp, by simp only []; omega⟩

theorem demoFull4_spec :
    demoFull4.records = demoCalls ∧ demoFull4.ezmem_debugMode = 4 ∧
      demoFull4.ezmem_allocCount = 1024 := by
  have h := run_mallocs_above_log 64 demoCalls (ezmem_init State.initial 4) (by decide)
    (fun c hc => by have := (demoCalls_ptr_le c hc).1; omega)
    (by simp [demoCalls, EZMEM_MAX_ALLOCATIONS, ezmem_init, State.emit, State.initial])
  obtain ⟨h1, h2, h3⟩ := h
  have hstep : step 64 State.initial (Op.init 4) = ezmem_init State.initial 4 := rfl
  rw [demoFull4, run_cons, hstep]
  have hrec0 : (ezmem_init State.initial 4).records = [] := by decide
  have hmode0 : (ezmem_init State.initial 4).ezmem_debugMode = 4 := by decide
  have hcount0 : (ezmem_init State.initial 4).ezmem_allocCount = 0 := rfl
  have hlen : demoCalls.length = 1024 := by simp [demoCalls]
  refine ⟨?_, ?_, ?_⟩
  · rw [h1, hrec0, List.nil_append]
  · rw [h2, hmode0]
  · rw [h3, hcount0, hlen]

/-- C19, as stated, fails in two places. First, with the mode value 4 and a full registry (the
state after `ezmem_init(4)` and 1024 successful allocations), a successful `ez_malloc_dbg`
returning 5000 followed by `ez_free_dbg(5000)` leaves no record of 5000: the registry is still
the 1024 earlier records and the exit report lists exactly those. Second, `ezmem_init` does not
store every integer as it is: `ezmem_init(-1)` stores 4294967295. -/
theorem mode_above_strict_counterexample :
    demoFull4.ezmem_debugMode > EZMEM_DEBUG_STRICT ∧
    (ez_malloc_dbg demoFull4 5000 16 "b.c" 7 "g").1 = 5000 ∧
    (ez_free_dbg (ez_malloc_dbg demoFull4 5000 16 "b.c" 7 "g").2 5000 "b.c" 8 "g").records
      = demoCalls ∧
    (∀ r ∈ (ez_free_dbg (ez_malloc_dbg demoFull4 5000 16 "b.c" 7 "g").2 5000 "b.c" 8
        "g").records, r.ptr ≠ 5000) ∧
    (ezmem_exit
        (ez_free_dbg (ez_malloc_dbg demoFull4 5000 16 "b.c" 7 "g").2 5000 "b.c" 8 "g")).trace
      = (ez_free_dbg (ez_malloc_dbg demoFull4 5000 16 "b.c" 7 "g").2 5000 "b.c" 8 "g").trace
        ++ Event.eprintf (Msg.leak_header 1024) :: demoCalls.map leakLine ∧
    (ezmem_init State.initial (-1)).ezmem_debugMode = 4294967295 ∧
    (ezmem_init State.initial (-1)).ezmem_debugMode ≠ -1 := by
  obtain ⟨hrec, hmode, hcount⟩ := demoFull4_spec
  have hgt : demoFull4.ezmem_debugMode > EZMEM_DEBUG_STRICT := by rw [hmode]; decide
  have hfull : ¬ (demoFull4.ezmem_debugMode > EZMEM_DEBUG_LOG ∧ 5000 ≠ 0
      ∧ demoFull4.ezmem_allocCount < EZMEM_MAX_ALLOCATIONS) := by
    rw [hcount]
    intro h
    exact absurd h.2.2 (by decide)
  have hmrec : (ez_malloc_dbg demoFull4 5000 16 "b.c" 7 "g").2.records = demoCalls := by
    rw [malloc_records, if_neg hfull, hrec]
  have hmcnt : (ez_malloc_dbg demoFull4 5000 16 "b.c" 7 "g").2.ezmem_allocCount = 1024 := by
    rw [malloc_count, if_neg hfull, hcount]
  have hmmode : (ez_malloc_dbg demoFull4 5000 16 "b.c" 7 "g").2.ezmem_debugMode = 4 := by
    rw [malloc_mode, hmode]
  have hm4 : (ez_malloc_dbg demoFull4 5000 16 "b.c" 7 "g").2.ezmem_debugMode
      > EZMEM_DEBUG_STRICT := by
    rw [hmmode]; decide
  have hpos : (ez_malloc_dbg demoFull4 5000 16 "b.c" 7 "g").2.ezmem_allocCount > 0 := by
    rw [hmcnt]; decide
  obtain ⟨hfrec0, hexit⟩ := exit_after_free_above_strict
    (ez_malloc_dbg demoFull4 5000 16 "b.c" 7 "g").2 5000 "b.c" 8 "g" hm4 hpos
  rw [hmrec] at hfrec0
  rw [hmrec, hmcnt] at hexit
  refine ⟨hgt, malloc_fst _ _ _ _ _ _, hfrec0, ?_, hexit, by decide, by decide⟩
  rw [hfrec0]
  intro r hr
  have := (demoCalls_ptr_le r hr).2
  omega

/-- C19, amended: `ezmem_init` stores its argument reduced modulo `2 ^ 32` (the conversion to
the unsigned type of the enum), so every value from 0 up to `2 ^ 32 - 1` is stored as it is,
without validation. For a mode value above STRICT, a successful `ez_malloc_dbg` /
`ez_calloc_dbg` / `ez_realloc_dbg` still writes its line and, when the registry has room (for
the resize: after removing the old pointer's record), appends its record, while `ez_free_dbg`
only calls `free`: buffer and count stay as they are even when the pointer has a record. Hence,
when the registry has fewer than `EZMEM_MAX_ALLOCATIONS` records, a successful allocation
returning `p` followed by the release of `p` leaves the record of `p` as the last record, and
`ezmem_exit` then writes the header and one "Leak:" line per record, the last one for `p`. -/
theorem mode_above_strict (w : Nat) (s : State) (ret nmemb ptr size : Nat) (file : String)
    (line : Int) (func : String) (file2 : String) (line2 : Int) (func2 : String)
    (hmode : s.ezmem_debugMode > EZMEM_DEBUG_STRICT) (hret : ret ≠ 0) :
    (∀ (t : State) (dbg : Int),
      (ezmem_init t dbg).ezmem_debugMode = dbg % DEBUG_LEVEL_RANGE ∧
      (0 ≤ dbg → dbg < DEBUG_LEVEL_RANGE → (ezmem_init t dbg).ezmem_debugMode = dbg)) ∧
    ((ez_malloc_dbg s ret size file line func).2.records
        = (if s.ezmem_allocCount < EZMEM_MAX_ALLOCATIONS
           then s.records ++ [⟨ret, size, file, line, func⟩] else s.records) ∧
      (ez_malloc_dbg s ret size file line func).2.trace
        = s.trace ++ [Event.call_malloc size ret,
            Event.printf (Msg.malloc_ok ret size file line func)]) ∧
    ((ez_calloc_dbg w s ret nmemb size file line func).2.records
        = (if s.ezmem_allocCount < EZMEM_MAX_ALLOCATIONS
           then s.records ++ [⟨ret, (nmemb * size) % 2 ^ w, file, line, func⟩] else s.records) ∧
      (ez_calloc_dbg w s ret nmemb size file line func).2.trace
        = s.trace ++ [Event.call_calloc nmemb size ret,
            Event.printf (Msg.calloc_ok ret nmemb size file line func)]) ∧
    ((ez_realloc_dbg s ret ptr size file line func).2.records
        = (if (ezmem_remove_alloc s ptr).2.ezmem_allocCount < EZMEM_MAX_ALLOCATIONS
           then (ezmem_remove_alloc s ptr).2.records ++ [⟨ret, size, file, line, func⟩]
           else (ezmem_remove_alloc s ptr).2.records) ∧
      (ez_realloc_dbg s ret ptr size file line func).2.trace
        = s.trace ++ [Event.call_realloc ptr size ret,
            Event.printf (Msg.realloc_ok ret ptr size file line func)]) ∧
    ez_free_dbg s ptr file line func = s.emit (Event.call_free ptr) ∧
    (s.ezmem_allocCount < EZMEM_MAX_ALLOCATIONS →
      (ez_free_dbg (ez_malloc_dbg s ret size file line func).2 ret file2 line2 func2).records
        = s.records ++ [⟨ret, size, file, line, func⟩] ∧
      (ezmem_exit
          (ez_free_dbg (ez_malloc_dbg s ret size file line func).2 ret file2 line2 func2)).trace
        = (ez_free_dbg (ez_malloc_dbg s ret size file line func).2 ret file2 line2 func2).trace
          ++ Event.eprintf (Msg.leak_header (s.records.length + 1))
            :: (s.records.map leakLine ++ [leakLine ⟨ret, size, file, line, func⟩])) := by
  have h3 : (3 : Int) < s.ezmem_debugMode := hmode
  have hgt : s.ezmem_debugMode > EZMEM_DEBUG_LOG := by
    show (1 : Int) < s.ezmem_debugMode
    omega
  have hne : s.ezmem_debugMode ≠ 0 := by omega
  have hfm : ez_free_dbg (ez_malloc_dbg s ret size file line func).2 ret file2 line2 func2
      = (ez_malloc_dbg s ret size file line func).2.emit (Event.call_free ret) :=
    free_above_strict _ _ _ _ _ (by rw [malloc_mode]; exact hmode)
  refine ⟨fun t dbg => ⟨rfl, fun h0 h1 => ?_⟩, ⟨?_, ?_⟩, ⟨?_, ?_⟩, ⟨?_, ?_⟩,
    free_above_strict s ptr file line func hmode, ?_⟩
  · show dbg % DEBUG_LEVEL_RANGE = dbg
    exact Int.emod_eq_of_lt h0 h1
  · rw [malloc_records]
    by_cases hroom : s.ezmem_allocCount < EZMEM_MAX_ALLOCATIONS
    · rw [if_pos ⟨hgt, hret, hroom⟩, if_pos hroom]
    · rw [if_neg (fun h => hroom h.2.2), if_neg hroom]
  · unfold ez_malloc_dbg
    simp only [mode_emit, if_pos hne, if_neg hret]
    split_ifs <;> simp
  · rw [calloc_records]
    by_cases hroom : s.ezmem_allocCount < EZMEM_MAX_ALLOCATIONS
    · rw [if_pos ⟨hgt, hret, hroom⟩, if_pos hroom]
    · rw [if_neg (fun h => hroom h.2.2), if_neg hroom]
  · unfold ez_calloc_dbg
    simp only [mode_emit, if_pos hne, if_neg hret]
    split_ifs <;> simp
  · rw [realloc_records, if_pos ⟨hgt, hret⟩]
  · unfold ez_realloc_dbg
    simp only [mode_emit, if_pos hne, if_neg hret]
    split_ifs <;> simp [remove_alloc_trace]
  · intro hroom
    have hmrec : (ez_malloc_dbg s ret size file line func).2.records
        = s.records ++ [⟨ret, size, file, line, func⟩] := by
      rw [malloc_records, if_pos ⟨hgt, hret, hroom⟩]
    have hmode2 : (ez_malloc_dbg s ret size file line func).2.ezmem_debugMode
        ≥ EZMEM_DEBUG_TRACK := by
      rw [malloc_mode]
      show (2 : Int) ≤ s.ezmem_debugMode
      omega
    have hcnt : (ez_malloc_dbg s ret size file line func).2.ezmem_allocCount
        = s.ezmem_allocCount + 1 := by
      rw [malloc_count, if_pos ⟨hgt, hret, hroom⟩]
    obtain ⟨hfrec, hexit⟩ := exit_after_free_above_strict
      (ez_malloc_dbg s ret size file line func).2 ret file2 line2 func2
      (by rw [malloc_mode]; exact hmode) (by rw [hcnt]; omega)
    refine ⟨by rw [hfrec, hmrec], ?_⟩
    rw [hexit, hmrec, hcnt, length_records, List.map_append, List.map_cons, List.map_nil]

/-- C19 (amended) at mode 4 from the empty registry: `malloc(16)` returns 100, 100 is released,
and the exit report still lists it. -/
theorem mode_above_strict_witness :
    (ezmem_init State.initial 4).ezmem_debugMode > EZMEM_DEBUG_STRICT ∧
    (ez_free_dbg (ez_malloc_dbg (ezmem_init State.initial 4) 100 16 "a.c" 1 "f").2 100 "a.c" 2
        "f").records = (ezmem_init State.initial 4).records ++ [⟨100, 16, "a.c", 1, "f"⟩] ∧
    (ezmem_exit (ez_free_dbg (ez_malloc_dbg (ezmem_init State.initial 4) 100 16 "a.c" 1 "f").2
        100 "a.c" 2 "f")).trace
      = [Event.call_atexit, Event.call_malloc 16 100,
          Event.printf (Msg.malloc_ok 100 16 "a.c" 1 "f"), Event.call_free 100,
          Event.eprintf (Msg.leak_header 1),
          Event.eprintf (Msg.leak_line 100 16 "a.c" 1 "f")] :=
  ⟨by decide,
    ((mode_above_strict 64 (ezmem_init State.initial 4) 100 1 100 16 "a.c" 1 "f" "a.c" 2 "f"
      (by decide) (by decide)).2.2.2.2.2 (by decide)).1,
    by decide⟩

/-! ## Index safety (C20) -/

theorem find_loop_acc_lt (buf : Nat → s_ezmemRecord) (count ptr : Nat) :
    ∀ fuel i a, a ∈ ezmem_find_alloc_loop_acc buf count ptr fuel i → a.index < count := by
  intro fuel
  induction fuel with
  | zero => intro i a h; simp [ezmem_find_alloc_loop_acc] at h
  | succ n ih =>
    intro i a h
    unfold ezmem_find_alloc_loop_acc at h
    split_ifs at h with hi hp
    · rw [List.mem_singleton.1 h]; exact hi
    · rcases List.mem_cons.1 h with h | h
      · rw [h]; exact hi
      · exact ih (i + 1) a h
    · simp at h

theorem remove_loop_acc_spec (count : Nat) :
    ∀ fuel i a, a ∈ ezmem_remove_alloc_loop_acc count fuel i →
      ∃ j, i ≤ j ∧ j + 1 < count ∧ (a = Access.read (j + 1) ∨ a = Access.write j) := by
  intro fuel
  induction fuel with
  | zero => intro i a h; simp [ezmem_remove_alloc_loop_acc] at h
  | succ n ih =>
    intro i a h
    unfold ezmem_remove_alloc_loop_acc at h
    split_ifs at h with hi
    · rcases List.mem_cons.1 h with h | h
      · exact ⟨i, Nat.le_refl i, by omega, Or.inl h⟩
      · rcases List.mem_cons.1 h with h | h
        · exact ⟨i, Nat.le_refl i, by omega, Or.inr h⟩
        · obtain ⟨j, hj, hjc, hja⟩ := ih (i + 1) a h
          exact ⟨j, by omega, hjc, hja⟩
    · simp at h

theorem exit_loop_acc_lt (count : Nat) :
    ∀ fuel i a, a ∈ ezmem_exit_loop_acc count fuel i → a.index < count := by
  intro fuel
  induction fuel with
  | zero => intro i a h; simp [ezmem_exit_loop_acc] at h
  | succ n ih =>
    intro i a h
    unfold ezmem_exit_loop_acc at h
    split_ifs at h with hi
    · rcases List.mem_cons.1 h with h | h
      · rw [h]; exact hi
      · exact ih (i + 1) a h
    · simp at h

theorem remove_acc_lt (s : State) (ptr : Nat) :
    ∀ a ∈ ezmem_remove_alloc_acc s ptr, a.index < s.ezmem_allocCount := by
  intro a h
  unfold ezmem_remove_alloc_acc at h
  rcases List.mem_append.1 h with h | h
  · exact find_loop_acc_lt _ _ _ _ _ a h
  · split_ifs at h
    · obtain ⟨j, _, hjc, hja⟩ := remove_loop_acc_spec _ _ _ a h
      rcases hja with e | e <;> rw [e] <;> simp only [Access.index] <;> omega
    · simp at h

theorem push_acc_index (s : State) : ∀ a ∈ s.push_acc, a.index = s.ezmem_allocCount := by
  intro a h
  unfold State.push_acc at h
  rw [(List.mem_replicate.1 h).2]
  rfl

/-- C20: whenever the record count is at most `EZMEM_MAX_ALLOCATIONS`, every buffer index read
or written by `ezmem_find_alloc`, `ezmem_remove_alloc`, the inserts of `ez_malloc_dbg` /
`ez_calloc_dbg` / `ez_realloc_dbg` and `ezmem_exit` is below `EZMEM_MAX_ALLOCATIONS` (lookup,
removal and exit stay below the count); the compaction loop reads index `j + 1` only when
`j + 1` is below the count and writes index `j` below it, and the three loops keep these bounds
for any number of iterations; the branch of `ezmem_remove_alloc`
that evaluates `ezmem_allocCount - 1` is taken only when the count is at least 1, where the
`size_t` subtraction of any width `w` that holds the count does not wrap; and the result of
`ezmem_find_alloc` is `-1` or a non-negative index below `EZMEM_MAX_ALLOCATIONS`, hence at most
32767, which every `int` holds. -/
theorem index_safety (s : State) (ret ptr : Nat)
    (hcap : s.ezmem_allocCount ≤ EZMEM_MAX_ALLOCATIONS) :
    (∀ a ∈ ezmem_find_alloc_acc s ptr,
      a.index < s.ezmem_allocCount ∧ a.index < EZMEM_MAX_ALLOCATIONS) ∧
    (∀ a ∈ ezmem_remove_alloc_acc s ptr,
      a.index < s.ezmem_allocCount ∧ a.index < EZMEM_MAX_ALLOCATIONS) ∧
    (∀ fuel i, ∀ a ∈ ezmem_remove_alloc_loop_acc s.ezmem_allocCount fuel i,
      ∃ j, i ≤ j ∧ j + 1 < s.ezmem_allocCount ∧ (a = Access.read (j + 1) ∨ a = Access.write j)) ∧
    (∀ fuel i, ∀ a ∈ ezmem_find_alloc_loop_acc s.ezmem_allocBuffer s.ezmem_allocCount ptr fuel i,
      a.index < s.ezmem_allocCount) ∧
    (∀ fuel i, ∀ a ∈ ezmem_exit_loop_acc s.ezmem_allocCount fuel i,
      a.index < s.ezmem_allocCount) ∧
    (∀ a ∈ ez_malloc_dbg_acc s ret, a.index < EZMEM_MAX_ALLOCATIONS) ∧
    (∀ a ∈ ez_calloc_dbg_acc s ret, a.index < EZMEM_MAX_ALLOCATIONS) ∧
    (∀ a ∈ ez_realloc_dbg_acc s ret ptr, a.index < EZMEM_MAX_ALLOCATIONS) ∧
    (∀ a ∈ ezmem_exit_acc s, a.index < s.ezmem_allocCount ∧ a.index < EZMEM_MAX_ALLOCATIONS) ∧
    (ezmem_find_alloc s ptr ≥ 0 →
      1 ≤ s.ezmem_allocCount ∧
      ∀ w, s.ezmem_allocCount < 2 ^ w →
        (s.ezmem_allocCount + 2 ^ w - 1) % 2 ^ w = s.ezmem_allocCount - 1) ∧
    (ezmem_find_alloc s ptr = -1 ∨
      (0 ≤ ezmem_find_alloc s ptr ∧ ezmem_find_alloc s ptr < (EZMEM_MAX_ALLOCATIONS : Int) ∧
        ezmem_find_alloc s ptr ≤ INT_MAX_LEAST)) := by
  have hfind : ezmem_find_alloc s ptr = -1 ∨
      ∃ k : Nat, ezmem_find_alloc s ptr = (k : Int) ∧ k < s.ezmem_allocCount := by
    by_cases h : s.tracked ptr
    · obtain ⟨k, hk, _, _, hf⟩ := find_alloc_tracked h
      exact Or.inr ⟨k, hf, hk⟩
    · exact Or.inl (find_alloc_untracked h)
  have hmax : EZMEM_MAX_ALLOCATIONS = 1024 := rfl
  refine ⟨?_, ?_, ?_, ?_, ?_, ?_, ?_, ?_, ?_, ?_, ?_⟩
  · intro a h
    have := find_loop_acc_lt _ _ _ _ _ a h
    exact ⟨this, by omega⟩
  · intro a h
    have := remove_acc_lt s ptr a h
    exact ⟨this, by omega⟩
  · intro fuel i a h
    exact remove_loop_acc_spec _ fuel i a h
  · intro fuel i a h
    exact find_loop_acc_lt _ _ _ fuel i a h
  · intro fuel i a h
    exact exit_loop_acc_lt _ fuel i a h
  · intro a h
    unfold ez_malloc_dbg_acc at h
    split_ifs at h with h1 h2 h3
    · simp at h
    · rw [push_acc_index s a h]; exact h3.2
    · simp at h
    · simp at h
  · intro a h
    unfold ez_calloc_dbg_acc at h
    split_ifs at h with h1 h2 h3
    · simp at h
    · rw [push_acc_index s a h]; exact h3.2
    · simp at h
    · simp at h
  · intro a h
    unfold ez_realloc_dbg_acc at h
    split_ifs at h with h1 h2 h3 h4
    · simp at h
    · rcases List.mem_append.1 h with h | h
      · have := remove_acc_lt s ptr a h
        omega
      · rw [push_acc_index _ a h]; exact h4
    · rw [List.append_nil] at h
      have := remove_acc_lt s ptr a h
      omega
    · simp at h
    · simp at h
  · intro a h
    unfold ezmem_exit_acc at h
    split_ifs at h
    · have := exit_loop_acc_lt _ _ _ a h
      exact ⟨this, by omega⟩
    · simp at h
  · intro hge
    have h1 : 1 ≤ s.ezmem_allocCount := by
      rcases hfind with h | ⟨k, _, hk⟩
      · rw [h] at hge; omega
      · omega
    refine ⟨h1, ?_⟩
    intro w hw
    have e : s.ezmem_allocCount + 2 ^ w - 1 = (s.ezmem_allocCount - 1) + 2 ^ w := by omega
    rw [e, Nat.add_mod_right, Nat.mod_eq_of_lt (by omega)]
  · rcases hfind with h | ⟨k, hf, hk⟩
    · exact Or.inl h
    · right
      rw [hf]
      refine ⟨by omega, ?_, ?_⟩
      · rw [hmax]; omega
      · show (k : Int) ≤ 32767
        omega

/-- C20 at a TRACK state with the records of 100 and 200: removing 100 reads index 0 (lookup),
then reads index 1 and writes index 0 (compaction). -/
theorem index_safety_witness :
    ezmem_remove_alloc_acc demoTwo 100 = [Access.read 0, Access.read 1, Access.write 0] ∧
    (∀ a ∈ ezmem_remove_alloc_acc demoTwo 100,
      a.index < demoTwo.ezmem_allocCount ∧ a.index < EZMEM_MAX_ALLOCATIONS) :=
  ⟨by decide, (index_safety demoTwo 300 100 (by decide)).2.1⟩

end Ezmem
